import Mathlib

/-!
# Verification of the airtable-jira sync engine

A shallow embedding of the repository's core logic (identity resolution,
description codec, status reconciliation, comment reconciliation, creation
propagation) together with proofs and refutations of the specification's
claims about it.

Python strings are modelled as `List Char`; Python dicts as insertion-ordered
association lists with first-match lookup and in-place value replacement;
remote-store calls as oracles packed into a `Config`; raised exceptions as
`Except` errors.  `datetime` instants are modelled as `Int` (only their linear
order is relevant to any claim); `strftime`/`strptime` results enter the model
as already-formatted fields or oracle parameters.
-/

namespace AJSync

abbrev LC := List Char

/-! ## Python dict, modelled as an association list -/

/-- `d.get(k)`: first-match lookup in an insertion-ordered dict. -/
def alGet {κ α : Type} [DecidableEq κ] : List (κ × α) → κ → Option α
  | [], _ => none
  | (k', v') :: t, k => if k' = k then some v' else alGet t k

/-- `d[k] = v`: replace in place if the key exists, else append. -/
def alSet {κ α : Type} [DecidableEq κ] : List (κ × α) → κ → α → List (κ × α)
  | [], k, v => [(k, v)]
  | (k', v') :: t, k, v => if k' = k then (k', v) :: t else (k', v') :: alSet t k v

/-! ## Python string primitives -/

/-- Python `str.strip()` whitespace class (the common subset relevant here). -/
def isPyWS (c : Char) : Bool :=
  c = ' ' || c = '\t' || c = '\n' || c = '\r' || c = '\x0b' || c = '\x0c'

def trimLeft (s : LC) : LC := s.dropWhile isPyWS

def trimRight (s : LC) : LC := (s.reverse.dropWhile isPyWS).reverse

/-- Python `s.strip()`. -/
def pyStrip (s : LC) : LC := trimRight (trimLeft s)

def toLowerStr (s : LC) : LC := s.map Char.toLower

def toUpperStr (s : LC) : LC := s.map Char.toUpper

/-- Python `s.replace("|", "\\|")`. -/
def escPipes : LC → LC
  | [] => []
  | c :: r => if c = '|' then '\\' :: '|' :: escPipes r else c :: escPipes r

/-- Python `s.replace("\n", " ")`. -/
def nlToSpace (s : LC) : LC := s.map (fun c => if c = '\n' then ' ' else c)

/-- The sanitization applied to every description-table cell:
`value.replace("|", "\\|").replace("\n", " ")`. -/
def sanitizeCell (s : LC) : LC := nlToSpace (escPipes s)

/-- Python `s.replace("**", "")` (left-to-right, non-overlapping). -/
def removeStars : LC → LC
  | [] => []
  | [c] => [c]
  | c1 :: c2 :: r => if c1 = '*' && c2 = '*' then removeStars r else c1 :: removeStars (c2 :: r)

/-- Python `s.split(c)`. -/
def splitOnChar (sep : Char) : LC → List LC
  | [] => [[]]
  | c :: r =>
      if c = sep then [] :: splitOnChar sep r
      else
        match splitOnChar sep r with
        | [] => [[c]]
        | l :: ls => (c :: l) :: ls

/-- `s.splitlines()`-like view used to model `re.MULTILINE` anchored searches:
the lines of `s` in order of position (a `^...$` multiline pattern matches `s`
iff it matches some line, and `re.search` returns the first such line's match). -/
def splitLines : LC → List LC := splitOnChar '\n'

/-- Python `"\n".join(ls)`. -/
def joinLines : List LC → LC
  | [] => []
  | [l] => l
  | l :: ls => l ++ '\n' :: joinLines ls

def hasNoNL (s : LC) : Bool := s.all (fun c => c ≠ '\n')

/-- `true` iff the string contains two consecutive newline characters. -/
def hasDoubleNL : LC → Bool
  | [] => false
  | [_] => false
  | c1 :: c2 :: r => (c1 = '\n' && c2 = '\n') || hasDoubleNL (c2 :: r)

/-- The text before the first occurrence of `pat` and the rest from that
occurrence on, or `none` when `pat` does not occur.  Models the leftmost-match
search of `re` for a pattern with a literal prefix. -/
def splitFirst (pat : LC) : LC → Option (LC × LC)
  | [] => if pat.isPrefixOf ([] : LC) then some ([], []) else none
  | c :: r =>
      if pat.isPrefixOf (c :: r) then some ([], c :: r)
      else
        match splitFirst pat r with
        | some (pre, suf) => some (c :: pre, suf)
        | none => none

/-- Number of positions at which `pat` occurs as a prefix of a suffix. -/
def countOccur (pat : LC) : LC → Nat
  | [] => 0
  | c :: r => (if pat.isPrefixOf (c :: r) then 1 else 0) + countOccur pat r

/-! ## Character classes used by the source's regular expressions -/

def isUpperAZ (c : Char) : Bool := 'A' ≤ c && c ≤ 'Z'

def isDigit09 (c : Char) : Bool := '0' ≤ c && c ≤ '9'

def isUpperOrDigit (c : Char) : Bool := isUpperAZ c || isDigit09 c

/-- The `[a-zA-Z0-9]` class. -/
def isAlnumAZ (c : Char) : Bool :=
  isUpperAZ c || ('a' ≤ c && c ≤ 'z') || isDigit09 c

/-- The `\S` class (negation of Python's `\s`). -/
def isNonWS (c : Char) : Bool := !isPyWS c

/-! ## `common_utils.py`: constants and mappings -/

def METADATA_BLOCK_HEADER : LC := "--- Airtable Sync Metadata ---".data

def METADATA_REC_ID_PREFIX : LC := "Airtable Record ID: ".data

def METADATA_EXP_ID_PREFIX : LC := "Experiment ID: ".data

def METADATA_URL_PREFIX : LC := "Airtable URL: ".data

/-- The pattern of `re.sub(rf"\n\n{re.escape(METADATA_BLOCK_HEADER)}.*$", ...)`
in phase 1's description regeneration: everything from the first occurrence of
a blank line followed by the metadata header is removed (DOTALL `.*$` runs to
the end of the string). -/
def metaPat : LC := '\n' :: '\n' :: METADATA_BLOCK_HEADER

def STATUS_MAPPING_AIRTABLE_TO_JIRA : List (LC × LC) :=
  [("Idea: Evaluated".data, "Backlog".data),
   ("Idea: Planning".data, "Plan".data),
   ("Deploy: Design/Configure/Dev".data, "Build".data),
   ("Build: QA".data, "Deploy".data),
   ("Monitor".data, "Test in progress".data),
   ("Learn: Analysis>Recs>Act".data, "Test completed".data),
   ("Finalised".data, "Closed".data),
   ("Idea: Backlog".data, "Backlog".data)]

/-- `{v: k for k, v in STATUS_MAPPING_AIRTABLE_TO_JIRA.items()}` followed by the
explicit override `["Backlog"] = "Idea: Backlog"`. -/
def STATUS_MAPPING_JIRA_TO_AIRTABLE : List (LC × LC) :=
  alSet (STATUS_MAPPING_AIRTABLE_TO_JIRA.foldl (fun m kv => alSet m kv.2 kv.1) [])
    "Backlog".data "Idea: Backlog".data

def COUNTRY_ISO_TO_NAME : List (LC × LC) :=
  [("BE".data, "Belgium".data), ("RO".data, "Romania".data), ("GR".data, "Greece".data),
   ("CZ".data, "Czechia".data), ("RS".data, "Serbia".data)]

def COUNTRY_NAME_TO_ISO : List (LC × LC) :=
  COUNTRY_ISO_TO_NAME.foldl (fun m kv => alSet m kv.2 kv.1) []

/-- `AIRTABLE_TO_JIRA_DESC_TABLE_MAP`: configuration-variable name to Jira
description-table header, in iteration (insertion) order. -/
def AIRTABLE_TO_JIRA_DESC_TABLE_MAP : List (LC × LC) :=
  [("AIRTABLE_OBSERVATION_FIELD".data, "1. Observation".data),
   ("AIRTABLE_IDEA_FIELD".data, "2. Idea".data),
   ("AIRTABLE_HYPOTHESIS_FIELD".data, "3. Hypothesis".data),
   ("AIRTABLE_COUNTRY_FIELD".data, "4. Country".data),
   ("AIRTABLE_PAGE_TYPE_FIELD".data, "5. Page type".data),
   ("AIRTABLE_PRIMARY_METRIC_FIELD".data, "6. Primary metric".data),
   ("AIRTABLE_SECONDARY_METRICS_FIELD".data, "7. Secondary metrics".data),
   ("AIRTABLE_PLATFORM_FIELD".data, "8. Platform".data),
   ("AIRTABLE_DEVICE_FIELD".data, "9. Device".data),
   ("AIRTABLE_VAIMO_COMMENTS_FIELD".data, "10. Vaimo comments".data),
   ("AIRTABLE_SPONSOR_COMMENTS_FIELD".data, "11. Sponsor comments".data),
   ("AIRTABLE_OTHER_COMMENTS_FIELD".data, "12. Other comments".data),
   ("AIRTABLE_TODO_NEEDED_FIELD".data, "13. To do/needed".data),
   ("AIRTABLE_HOW_TO_QA_FIELD".data, "14. How to QA".data),
   ("AIRTABLE_TYPE_OF_TEST_FIELD".data, "15. Type of Test".data)]

def JIRA_DESC_TABLE_TO_AIRTABLE_MAP : List (LC × LC) :=
  AIRTABLE_TO_JIRA_DESC_TABLE_MAP.foldl (fun m kv => alSet m kv.2 kv.1) []

/-- Names bound at module level in `common_utils.py` as it stands in the
repository.  Used to model Python attribute lookup on the module: accessing a
name not in this list raises `AttributeError`.  Note that
`AIRTABLE_IDEA_NAME_FIELD`, `AIRTABLE_LAST_MODIFIED_FIELD_NAME`,
`JIRA_BOARD_ID_CONFIG` and `QA_REPORT_INCLUDE_DESCRIPTION_FLAG` are referenced
by other modules but are absent here. -/
def commonUtilsModuleAttrs : List LC :=
  ["DRY_RUN".data, "SCRIPT_DEBUG_MODE".data, "LOG_LEVEL".data,
   "ENABLE_PHASE1".data, "ENABLE_PHASE2".data, "ENABLE_PHASE3".data,
   "ENABLE_SPRINT_MANAGEMENT".data, "ENABLE_COMMENT_SYNC".data,
   "AIRTABLE_BASE_ID_CONFIG".data, "AIRTABLE_TABLE_NAME_CONFIG".data,
   "AIRTABLE_TOKEN_CONFIG".data, "AIRTABLE_HEADLINE_FIELD".data,
   "AIRTABLE_STATUS_FIELD".data, "AIRTABLE_EXPERIMENT_ID_FIELD".data,
   "AIRTABLE_TEST_ID_FIELD".data, "AIRTABLE_JIRA_KEY_FIELD".data,
   "AIRTABLE_JIRA_URL_FIELD".data, "AIRTABLE_OBSERVATION_FIELD".data,
   "AIRTABLE_IDEA_FIELD".data, "AIRTABLE_HYPOTHESIS_FIELD".data,
   "AIRTABLE_COUNTRY_FIELD".data, "AIRTABLE_PAGE_TYPE_FIELD".data,
   "AIRTABLE_PRIMARY_METRIC_FIELD".data, "AIRTABLE_SECONDARY_METRICS_FIELD".data,
   "AIRTABLE_PLATFORM_FIELD".data, "AIRTABLE_DEVICE_FIELD".data,
   "AIRTABLE_VAIMO_COMMENTS_FIELD".data, "AIRTABLE_SPONSOR_COMMENTS_FIELD".data,
   "AIRTABLE_OTHER_COMMENTS_FIELD".data, "AIRTABLE_TODO_NEEDED_FIELD".data,
   "AIRTABLE_HOW_TO_QA_FIELD".data, "AIRTABLE_TYPE_OF_TEST_FIELD".data,
   "AIRTABLE_PLANNED_START_DATE_FIELD".data, "AIRTABLE_ESTIMATED_END_DATE_FIELD".data,
   "AIRTABLE_GOAL_FIELD".data,
   "AIRTABLE_STATUSES_FOR_JIRA_CREATION_LIST".data, "AIRTABLE_STATUSES_FOR_SYNC_LIST".data,
   "JIRA_PROJECT_KEY_CONFIG".data, "JIRA_ISSUE_TYPE_NAME_CONFIG".data,
   "JIRA_CRO_INTAKE_FORM_KEY".data, "JIRA_CRO_LABEL".data,
   "JIRA_NEW_ISSUE_STATUS".data, "JIRA_NOT_EVALUATED_PREFIX_CONST".data,
   "JIRA_AIRTABLE_ID_CF".data, "JIRA_CLUSTER_CF".data,
   "JIRA_AFFECTED_COUNTRY_CF".data, "JIRA_REQUIRED_DATE_CF".data, "JIRA_DUE_DATE_CF".data,
   "AIRTABLE_USERS_TABLE".data, "AIRTABLE_USERS_EMAIL_FIELD".data,
   "AIRTABLE_SITE_IS_LINKED".data, "AIRTABLE_SITE_LINKED_TABLE".data,
   "AIRTABLE_SITE_DISPLAY_FIELD".data,
   "AIRTABLE_PAGE_TYPE_IS_LINKED".data, "AIRTABLE_PAGE_TYPE_LINKED_TABLE".data,
   "AIRTABLE_PAGE_TYPE_DISPLAY_FIELD".data,
   "AIRTABLE_PRIMARY_METRIC_IS_LINKED".data, "AIRTABLE_PRIMARY_METRIC_LINKED_TABLE".data,
   "AIRTABLE_PRIMARY_METRIC_DISPLAY_FIELD".data,
   "AIRTABLE_PLATFORM_IS_LINKED".data, "AIRTABLE_PLATFORM_LINKED_TABLE".data,
   "AIRTABLE_PLATFORM_DISPLAY_FIELD".data,
   "AIRTABLE_GOAL_IS_LINKED".data, "AIRTABLE_GOAL_LINKED_TABLE".data,
   "AIRTABLE_GOAL_DISPLAY_FIELD".data,
   "STATUS_MAPPING_AIRTABLE_TO_JIRA".data, "STATUS_MAPPING_JIRA_TO_AIRTABLE".data,
   "COUNTRY_ISO_TO_NAME".data, "COUNTRY_NAME_TO_ISO".data,
   "AIRTABLE_TO_JIRA_DESC_TABLE_MAP".data, "JIRA_DESC_TABLE_TO_AIRTABLE_MAP".data,
   "METADATA_BLOCK_HEADER".data, "METADATA_BLOCK_FOOTER".data,
   "METADATA_REC_ID_PREFIX".data, "METADATA_EXP_ID_PREFIX".data, "METADATA_URL_PREFIX".data,
   "init_global_airtable_client".data, "get_global_airtable_client".data,
   "get_linked_record_display_values".data, "get_user_emails_from_airtable".data,
   "get_jira_account_id".data, "format_jira_description_table_from_airtable".data,
   "parse_jira_description_table_to_airtable_fields".data,
   "find_jira_transition_id_by_name".data, "get_experiment_wxx_txx_id".data,
   "construct_jira_headline".data, "format_date_for_jira".data,
   "format_date_for_airtable".data, "format_full_jira_description".data,
   "parse_metadata_from_jira_description".data]

/-! ## Regular-expression matchers from the source, as deterministic scanners

Each class used by the source's patterns is disjoint from the literal that
follows its `+` quantifier, so greedy matching with backtracking degenerates to
a maximal-run scan; the functions below implement exactly that. -/

/-- `re.match(r"^[A-Z][A-Z0-9]+-\d+$", s)` as a Bool
(`main_controller.build_initial_mappings`, step 1). -/
def matchesJiraKeyPat : LC → Bool
  | [] => false
  | c :: rest =>
      isUpperAZ c &&
      (let run := rest.takeWhile isUpperOrDigit
       decide (run ≠ []) &&
       (match rest.drop run.length with
        | '-' :: ds => decide (ds ≠ []) && ds.all isDigit09
        | _ => false))

/-- The group `(rec[a-zA-Z0-9]{14})` anchored to the end of the line:
`s` is `"rec"` followed by exactly 14 alphanumerics. -/
def checkRecIdGroup (s : LC) : Bool :=
  "rec".data.isPrefixOf s && decide ((s.drop 3).length = 14) && (s.drop 3).all isAlnumAZ

/-- The group `(W\d+T\d+)` (case-insensitive) filling the whole of `s`. -/
def matchesWT : LC → Bool
  | [] => false
  | w :: rest =>
      (w = 'W' || w = 'w') &&
      (let ds := rest.takeWhile isDigit09
       decide (ds ≠ []) &&
       (match rest.drop ds.length with
        | t :: rest2 => (t = 'T' || t = 't') && decide (rest2 ≠ []) && rest2.all isDigit09
        | [] => false))

/-- The `[^/\s]` class. -/
def urlSegP (c : Char) : Bool := c ≠ '/' && isNonWS c

/-- The `/\S+` tail of the URL pattern, anchored to the end of the line. -/
def urlAfterSeg2 : LC → Bool
  | '/' :: r3 => decide (r3 ≠ []) && r3.all isNonWS
  | _ => false

/-- The `/[^/\s]+/\S+` tail of the URL pattern. -/
def urlAfterSeg1 : LC → Bool
  | '/' :: r2 =>
      decide (r2.takeWhile urlSegP ≠ []) &&
        urlAfterSeg2 (r2.drop (r2.takeWhile urlSegP).length)
  | _ => false

/-- The `[^/\s]+/[^/\s]+/\S+` part after the fixed host prefix. -/
def urlCheckFrom (r1 : LC) : Bool :=
  decide (r1.takeWhile urlSegP ≠ []) &&
    urlAfterSeg1 (r1.drop (r1.takeWhile urlSegP).length)

/-- The group `(https://airtable\.com/[^/\s]+/[^/\s]+/\S+)` filling the whole
of `s`. -/
def urlGroupOk (s : LC) : Bool :=
  "https://airtable.com/".data.isPrefixOf s &&
    urlCheckFrom (s.drop ("https://airtable.com/".data).length)

/-- `re.search(r"(W\d+T\d+)", s, re.IGNORECASE)` at one position: the maximal
match starting exactly at the head of `s`, if any. -/
def matchWTAt : LC → Option LC
  | [] => none
  | w :: rest =>
      if w = 'W' || w = 'w' then
        let ds := rest.takeWhile isDigit09
        if ds ≠ [] then
          match rest.drop ds.length with
          | t :: rest2 =>
              if t = 'T' || t = 't' then
                let ds2 := rest2.takeWhile isDigit09
                if ds2 ≠ [] then some (w :: ds ++ t :: ds2) else none
              else none
          | [] => none
        else none
      else none

/-- `common_utils.get_experiment_wxx_txx_id`: leftmost case-insensitive
`W\d+T\d+` match, uppercased; `None` when absent or the input is falsy. -/
def get_experiment_wxx_txx_id : LC → Option LC
  | [] => none
  | c :: rest =>
      match matchWTAt (c :: rest) with
      | some g => some (toUpperStr g)
      | none => get_experiment_wxx_txx_id rest

/-! ## `common_utils.parse_metadata_from_jira_description` -/

structure JiraMetadata where
  airtable_record_id : Option LC
  experiment_id : Option LC
  airtable_url : Option LC
deriving Repr, DecidableEq

/-- One line against `^Airtable Record ID: (rec[a-zA-Z0-9]{14})$`. -/
def recLineParse (line : LC) : Option LC :=
  if METADATA_REC_ID_PREFIX.isPrefixOf line then
    let g := line.drop METADATA_REC_ID_PREFIX.length
    if checkRecIdGroup g then some g else none
  else none

/-- One line against `^Experiment ID: (W\d+T\d+)$` with `re.IGNORECASE`
(the flag applies to the literal prefix as well); the captured group is
uppercased by the caller, which we fold in here as the source does. -/
def expLineParse (line : LC) : Option LC :=
  if (toLowerStr METADATA_EXP_ID_PREFIX).isPrefixOf (toLowerStr line) then
    let g := line.drop METADATA_EXP_ID_PREFIX.length
    if matchesWT g then some (toUpperStr g) else none
  else none

/-- One line against
`^Airtable URL: (https://airtable\.com/[^/\s]+/[^/\s]+/\S+)$`. -/
def urlLineParse (line : LC) : Option LC :=
  if METADATA_URL_PREFIX.isPrefixOf line then
    let g := line.drop METADATA_URL_PREFIX.length
    if urlGroupOk g then some g else none
  else none

/-- `common_utils.parse_metadata_from_jira_description`: three independent
`re.search` calls with `^...$`-anchored multiline patterns; each returns the
match on the first (by position) line that fits its pattern. -/
def parse_metadata_from_jira_description (d : LC) : JiraMetadata :=
  if d = [] then ⟨none, none, none⟩
  else
    ⟨(splitLines d).findSome? recLineParse, (splitLines d).findSome? expLineParse,
     (splitLines d).findSome? urlLineParse⟩

/-! ## Airtable field values and the run configuration

A field value is a string or a list of strings (the shapes the source
distinguishes with `isinstance`).  `Config` bundles the environment-derived
globals of `common_utils.py` plus the remote-call oracles needed to keep the
embedding executable: `resolveLinked` stands for
`get_linked_record_display_values`, `tsParse` for the `fromisoformat`
timestamp parse (an instant is an `Int`), `transitionLookup` for
`find_jira_transition_id_by_name`, and `attrVal` supplies the value of a
`common_utils` attribute when (and only when) that attribute exists. -/

inductive AValue where
  | str (s : LC)
  | lst (items : List LC)
deriving Repr, DecidableEq

/-- Python truthiness for the two value shapes. -/
def AValue.truthy : AValue → Bool
  | .str s => s ≠ []
  | .lst l => l ≠ []

/-- `f"{v}"`: identity on strings, `repr` on lists of strings. -/
def AValue.pyFormat : AValue → LC
  | .str s => s
  | .lst items =>
      '[' :: List.intercalate ", ".data (items.map (fun s => '\'' :: s ++ ['\''])) ++ [']']

/-- `', '.join(map(str, raw))` for list values, `str(raw)` otherwise. -/
def AValue.joinFallback : AValue → LC
  | .str s => s
  | .lst items => List.intercalate ", ".data items

structure Config where
  /-- `globals().get(varName)` for the `AIRTABLE_*_FIELD` description-table
  variables: `none` models an unset environment variable (value `None`). -/
  fieldOfVar : LC → Option LC
  goalField : Option LC := none
  siteIsLinked : Bool := false
  siteLinkedTable : Option LC := none
  siteDisplayField : Option LC := none
  pageTypeIsLinked : Bool := false
  pageTypeLinkedTable : Option LC := none
  pageTypeDisplayField : Option LC := none
  primaryMetricIsLinked : Bool := false
  primaryMetricLinkedTable : Option LC := none
  primaryMetricDisplayField : Option LC := none
  platformIsLinked : Bool := false
  platformLinkedTable : Option LC := none
  platformDisplayField : Option LC := none
  goalIsLinked : Bool := false
  goalLinkedTable : Option LC := none
  goalDisplayField : Option LC := none
  resolveLinked : List LC → LC → LC → List LC := fun ids _ _ => ids
  experimentIdField : Option LC := none
  testIdField : Option LC := none
  statusField : LC := "Status".data
  headlineField : LC := "Full Name".data
  jiraKeyField : Option LC := none
  jiraUrlField : Option LC := none
  creationStatuses : List LC := ["Idea: Evaluated".data]
  airtableBaseIdConfig : LC := []
  airtableTableNameConfig : LC := []
  jiraProjectKey : LC := []
  jiraIssueTypeName : LC := []
  jiraCroLabel : LC := []
  jiraServerUrl : LC := []
  enableAirtableUpdates : Bool := false
  dryRun : Bool := false
  enableCommentSync : Bool := false
  enableSprintManagement : Bool := false
  attrVal : LC → LC := fun _ => []
  tsParse : LC → Option Int := fun _ => none
  transitionLookup : LC → LC → Option LC := fun _ _ => none

/-- Python `getattr(common_utils, name)`: the module's attribute when defined,
`AttributeError` otherwise. -/
def getattrCU (cfg : Config) (name : LC) : Except LC LC :=
  if name ∈ commonUtilsModuleAttrs then .ok (cfg.attrVal name)
  else .error ("AttributeError: module 'common_utils' has no attribute '".data
    ++ name ++ "'".data)

/-! ## `common_utils.format_full_jira_description` -/

/-- The inner helper `get_resolved_value_for_desc` of
`format_full_jira_description`. -/
def getResolvedValueForDesc (cfg : Config) (fields : List (LC × AValue)) (varName : LC) : LC :=
  match cfg.fieldOfVar varName with
  | none => "[CONFIG_ERROR]".data
  | some fname =>
      match alGet fields fname with
      | none => []
      | some raw =>
          let linked : Bool × Option LC × Option LC :=
            if some fname = cfg.fieldOfVar "AIRTABLE_COUNTRY_FIELD".data then
              (cfg.siteIsLinked, cfg.siteLinkedTable, cfg.siteDisplayField)
            else if some fname = cfg.fieldOfVar "AIRTABLE_PAGE_TYPE_FIELD".data then
              (cfg.pageTypeIsLinked, cfg.pageTypeLinkedTable, cfg.pageTypeDisplayField)
            else if some fname = cfg.fieldOfVar "AIRTABLE_PRIMARY_METRIC_FIELD".data then
              (cfg.primaryMetricIsLinked, cfg.primaryMetricLinkedTable, cfg.primaryMetricDisplayField)
            else if some fname = cfg.fieldOfVar "AIRTABLE_PLATFORM_FIELD".data then
              (cfg.platformIsLinked, cfg.platformLinkedTable, cfg.platformDisplayField)
            else if some fname = cfg.goalField then
              (cfg.goalIsLinked, cfg.goalLinkedTable, cfg.goalDisplayField)
            else (false, none, none)
          match linked with
          | (true, some lt, some df) =>
              let ids : List LC :=
                match raw with
                | .lst items =>
                    if items.all (fun i => ("rec".data).isPrefixOf i) then items else []
                | .str s => if ("rec".data).isPrefixOf s then [s] else []
              if ids ≠ [] then
                let resolved := cfg.resolveLinked ids lt df
                let resolved :=
                  if some fname = cfg.fieldOfVar "AIRTABLE_COUNTRY_FIELD".data then
                    resolved.map (fun i => (alGet COUNTRY_ISO_TO_NAME i).getD i)
                  else resolved
                if resolved ≠ [] then List.intercalate ", ".data resolved
                else "[Unresolved: ".data ++ List.intercalate ", ".data ids ++ ['\x5d']
              else raw.joinFallback
          | _ => raw.joinFallback

def tableHeaderRow : LC := "| Problem or Opportunity | Answers (incl phase) |".data

def tableSepRow : LC := "| :--------------------- | :------------------- |".data

/-- One content row: `f"| **{jira_header}** | {value_sanitized} |"`. -/
def descRow (cfg : Config) (fields : List (LC × AValue)) (vh : LC × LC) : LC :=
  "| **".data ++ vh.2 ++ "** | ".data
    ++ sanitizeCell (getResolvedValueForDesc cfg fields vh.1) ++ " |".data

/-- The optional trailing `| **Airtable Test ID** | ... |` row (note: this row
is not sanitized in the source). -/
def testIdRows (cfg : Config) (fields : List (LC × AValue)) : List LC :=
  let v : AValue :=
    match cfg.testIdField with
    | none => .str []
    | some tf => (alGet fields tf).getD (.str [])
  if v.truthy then ["| **Airtable Test ID** | ".data ++ v.pyFormat ++ " |".data] else []

/-- The main description table (rows joined with `"\n"`). -/
def mainDescriptionTable (cfg : Config) (fields : List (LC × AValue)) : LC :=
  joinLines ([tableHeaderRow, tableSepRow]
    ++ AIRTABLE_TO_JIRA_DESC_TABLE_MAP.map (descRow cfg fields)
    ++ testIdRows cfg fields)

/-- `f"https://airtable.com/{base}/{table}/{recId}"`. -/
def mkAirtableUrl (base table recId : LC) : LC :=
  "https://airtable.com/".data ++ (base ++ ('/' :: (table ++ ('/' :: recId))))

/-- `common_utils.format_full_jira_description`: the content table followed by
the metadata block (header line preceded by a blank line; record-id line,
optional experiment-id line, URL line, each behind the source's truthiness
guards). -/
def format_full_jira_description (cfg : Config) (recId : LC) (fields : List (LC × AValue))
    (base table : LC) : LC :=
  let main := mainDescriptionTable cfg fields
  let metaLines : List LC := [('\n' :: '\n' :: METADATA_BLOCK_HEADER)]
  let metaLines :=
    if recId ≠ [] then metaLines ++ [METADATA_REC_ID_PREFIX ++ recId] else metaLines
  let metaLines :=
    match cfg.experimentIdField.bind (alGet fields) with
    | some v =>
        if v.truthy then metaLines ++ [METADATA_EXP_ID_PREFIX ++ v.pyFormat] else metaLines
    | none => metaLines
  let metaLines :=
    if recId ≠ [] ∧ base ≠ [] ∧ table ≠ [] then
      metaLines ++ [METADATA_URL_PREFIX ++ mkAirtableUrl base table recId]
    else metaLines
  if metaLines.length > 1 then main ++ '\n' :: joinLines metaLines else main

/-! ## `common_utils.parse_jira_description_table_to_airtable_fields`

The parsed dict may acquire a `None` key (the `Airtable Test ID` special case
writes to `parsed_data[AIRTABLE_TEST_ID_FIELD]` even when that configuration
value is `None`), so keys are `Option LC`. -/

def parseTableLine (cfg : Config) (acc : List (Option LC × LC)) (line : LC) :
    List (Option LC × LC) :=
  if ¬ ("| **".data.isPrefixOf (pyStrip line)) then acc
  else
    let parts := (splitOnChar '|' line).map pyStrip
    if parts.length ≥ 4 then
      let headerTxt := pyStrip (removeStars ((parts.get? 1).getD []))
      let raw := pyStrip ((parts.get? 2).getD [])
      match alGet JIRA_DESC_TABLE_TO_AIRTABLE_MAP headerTxt with
      | some varName =>
          match cfg.fieldOfVar varName with
          | some fname =>
              let v :=
                if some fname = cfg.fieldOfVar "AIRTABLE_COUNTRY_FIELD".data then
                  (alGet COUNTRY_NAME_TO_ISO raw).getD raw
                else raw
              alSet acc (some fname) v
          | none => acc
      | none =>
          if headerTxt = "Airtable Test ID".data then alSet acc cfg.testIdField raw
          else acc
    else acc

def parse_jira_description_table_to_airtable_fields (cfg : Config) (d : LC) :
    List (Option LC × LC) :=
  if d = [] then [] else (splitLines d).foldl (parseTableLine cfg) []

/-! ## Phase 1, step C: description regeneration (strip prior block, append) -/

/-- `phase1_jira_to_airtable.run_phase1`, lines 139-152: clean the current
description of everything from the first `\n\n<header>` on, strip whitespace,
and append a fresh metadata block.  `expOpt` is the already-computed
`get_experiment_wxx_txx_id(new_summary)`. -/
def updateJiraDescriptionMetadata (currentDesc recId : LC) (expOpt : Option LC)
    (base table : LC) : LC :=
  let cleaned :=
    pyStrip (match splitFirst metaPat currentDesc with
      | some (pre, _) => pre
      | none => currentDesc)
  let metaLines : List LC :=
    [('\n' :: '\n' :: METADATA_BLOCK_HEADER), METADATA_REC_ID_PREFIX ++ recId]
  let metaLines :=
    match expOpt with
    | some e => metaLines ++ [METADATA_EXP_ID_PREFIX ++ e]
    | none => metaLines
  let metaLines := metaLines ++ [METADATA_URL_PREFIX ++ mkAirtableUrl base table recId]
  cleaned ++ '\n' :: joinLines metaLines

/-! ## Snapshot records -/

structure JComment where
  id : LC
  body : LC
  authorDisplayName : Option LC := none
  /-- The `strftime('%Y-%m-%d %H:%M')` rendering of the parsed `created`
  timestamp (timestamp formatting is abstracted to its result). -/
  createdFmt : LC := []
deriving Repr, DecidableEq

structure AComment where
  id : LC
  text : LC
  hasAuthor : Bool := false
  authorName : Option LC := none
  authorEmail : Option LC := none
  /-- The `strftime('%Y-%m-%d %H:%M')` rendering of `created_time`. -/
  createdFmt : LC := []
deriving Repr, DecidableEq

structure JiraIssue where
  key : LC
  summary : LC := []
  statusName : LC := []
  description : Option LC := none
  /-- Result of `datetime.strptime(issue.fields.updated, ...)`; `none` models
  an unparsable string (`ValueError`). -/
  updatedParse : Option Int := none
  comments : List JComment := []
deriving Repr

structure ATRecord where
  id : LC
  fields : List (LC × AValue) := []
  comments : List AComment := []
deriving Repr

/-! ## `main_controller.build_initial_mappings` -/

/-- The pair `(jira_key_to_airtable_id, airtable_id_to_jira_key)`. -/
abbrev Maps := List (LC × LC) × List (LC × LC)

inductive MapLog where
  | conflictJiraKey (jiraKey recordId existing : LC)
  | ignoredPlaceholder (recordId : LC) (raw : LC)
  | conflictRecId (jiraKey recId existingKey : LC)
  | establishedLink (jiraKey recId : LC)
deriving Repr, DecidableEq

/-- Step-1 loop body: read the cross-reference field of one Airtable record,
register the link when the value matches the Jira-key pattern, warn on
conflict, keep the first mapping.  A non-string field value would raise in the
source (`'.strip()'` on a list); such snapshots are outside the modelled
scope and leave the state unchanged here. -/
def step1ProcessRecord (cfg : Config) (st : Maps × List MapLog) (record : ATRecord) :
    Maps × List MapLog :=
  match cfg.jiraKeyField.bind (alGet record.fields) with
  | some (.str jkRaw) =>
      if jkRaw ≠ [] ∧ matchesJiraKeyPat (pyStrip jkRaw) then
        match alGet st.1.1 (pyStrip jkRaw) with
        | some existing =>
            if existing ≠ record.id then
              (st.1, st.2 ++ [.conflictJiraKey (pyStrip jkRaw) record.id existing])
            else ((alSet st.1.1 (pyStrip jkRaw) record.id,
                   alSet st.1.2 record.id (pyStrip jkRaw)), st.2)
        | none => ((alSet st.1.1 (pyStrip jkRaw) record.id,
                    alSet st.1.2 record.id (pyStrip jkRaw)), st.2)
      else if jkRaw ≠ [] then (st.1, st.2 ++ [.ignoredPlaceholder record.id jkRaw])
      else st
  | some (.lst _) => st
  | none => st

/-- Step-2 loop body: for a Jira issue not yet linked, recover the Airtable
record id from the description's metadata block and register it under the same
first-wins policy. -/
def step2ProcessIssue (cfg : Config) (st : Maps × List MapLog) (issue : JiraIssue) :
    Maps × List MapLog :=
  let _ := cfg
  if (alGet st.1.1 issue.key).isSome then st
  else
    match issue.description with
    | some d =>
        if d ≠ [] then
          match (parse_metadata_from_jira_description d).airtable_record_id with
          | some recId =>
              match alGet st.1.2 recId with
              | some existingKey =>
                  if existingKey ≠ issue.key then
                    (st.1, st.2 ++ [.conflictRecId issue.key recId existingKey])
                  else ((alSet st.1.1 issue.key recId, alSet st.1.2 recId issue.key),
                        st.2 ++ [.establishedLink issue.key recId])
              | none => ((alSet st.1.1 issue.key recId, alSet st.1.2 recId issue.key),
                         st.2 ++ [.establishedLink issue.key recId])
          | none => st
        else st
    | none => st

def build_initial_mappings (cfg : Config) (issues : List JiraIssue)
    (records : List ATRecord) : Maps × List MapLog :=
  issues.foldl (step2ProcessIssue cfg) (records.foldl (step1ProcessRecord cfg) (([], []), []))

/-- `run_phase1` lines 124-125: register a freshly created link in both shared
maps. -/
def registerLink (m : Maps) (jiraKey recId : LC) : Maps :=
  (alSet m.1 jiraKey recId, alSet m.2 recId jiraKey)

/-- Mutual consistency of the two maps (the identity-bijection invariant). -/
def Consistent (m : Maps) : Prop :=
  (∀ k v, alGet m.1 k = some v → alGet m.2 v = some k) ∧
  (∀ v k, alGet m.2 v = some k → alGet m.1 k = some v)

/-! ## Phase 3, chunk A: two-way status sync -/

inductive Mutation where
  | airtableStatusUpdate (recordId newStatus : LC)
  | jiraTransition (jiraKey transitionId : LC)
deriving Repr, DecidableEq

/-- The body of the `try` at `phase3_two_way_sync.py` lines 181-239, for one
linked pair.  `lastModAttr` is the result of looking up
`common_utils.AIRTABLE_LAST_MODIFIED_FIELD_NAME` (see `getattrCU`; the
attribute does not exist in `common_utils.py`, so at the source's call site it
is an `AttributeError`).  Returns the attempted remote mutations and the
recorded action strings, or the raised exception. -/
def statusSyncTry (cfg : Config) (lastModAttr : Except LC LC) (jiraKey airtableId : LC)
    (fields : List (LC × AValue)) (jiraStatus : LC) (jiraUpdatedParse : Option Int) :
    Except LC (List Mutation × List LC) :=
  match alGet fields cfg.statusField with
  | some (.lst _) => .error "TypeError: unhashable type: 'list'".data
  | avOpt =>
      let airtableStatus : Option LC :=
        match avOpt with
        | some (.str s) => some s
        | _ => none
      let expectedJira := airtableStatus.bind (alGet STATUS_MAPPING_AIRTABLE_TO_JIRA)
      let expectedAirtable := alGet STATUS_MAPPING_JIRA_TO_AIRTABLE jiraStatus
      let isJiraOut : Bool :=
        match expectedJira with
        | some e => toLowerStr jiraStatus ≠ toLowerStr e
        | none => false
      match expectedAirtable, airtableStatus with
      | some _, none =>
          .error "AttributeError: 'NoneType' object has no attribute 'lower'".data
      | ea, ast =>
          let isAirtableOut : Bool :=
            match ea, ast with
            | some e, some s => toLowerStr s ≠ toLowerStr e
            | _, _ => false
          if isJiraOut ∨ isAirtableOut then
            match jiraUpdatedParse with
            | none => .error "ValueError: strptime".data
            | some jiraUpdatedDt =>
                match lastModAttr with
                | .error e => .error e
                | .ok lastModField =>
                    match alGet fields lastModField with
                    | some (.lst _) =>
                        .error "AttributeError: 'list' object has no attribute 'replace'".data
                    | lmOpt =>
                        let airtableUpdatedStr : Option LC :=
                          match lmOpt with
                          | some (.str s) => if s ≠ [] then some s else none
                          | _ => none
                        match airtableUpdatedStr.bind cfg.tsParse with
                        | none =>
                            .ok ([], ["Status Sync: SKIPPED - Missing Airtable timestamp.".data])
                        | some atDt =>
                            if jiraUpdatedDt > atDt ∧ isAirtableOut then
                              let eav := ea.getD []
                              .ok ((if cfg.dryRun then []
                                    else [.airtableStatusUpdate airtableId eav]),
                                   ["Airtable: Plan to update status to '".data
                                      ++ eav ++ "'.".data])
                            else if atDt > jiraUpdatedDt ∧ isJiraOut then
                              let ej := expectedJira.getD []
                              let muts : List Mutation :=
                                if cfg.dryRun then []
                                else
                                  match cfg.transitionLookup jiraKey ej with
                                  | some tid => [.jiraTransition jiraKey tid]
                                  | none => []
                              .ok (muts, ["Jira: Plan to update status to '".data
                                    ++ ej ++ "'.".data])
                            else .ok ([], [])
          else .ok ([], ["Status Sync: OK.".data])

/-- Chunk A with its enclosing `except` (lines 240-242): an exception is
caught, recorded as the item's error, and no mutation escapes. -/
def statusSyncChunk (cfg : Config) (lastModAttr : Except LC LC) (jiraKey airtableId : LC)
    (fields : List (LC × AValue)) (jiraStatus : LC) (jiraUpdatedParse : Option Int) :
    List Mutation × List LC × Option LC :=
  match statusSyncTry cfg lastModAttr jiraKey airtableId fields jiraStatus jiraUpdatedParse with
  | .ok (muts, acts) => (muts, acts, none)
  | .error e => ([], [], some ("Status Sync Failed: ".data ++ e))

/-! ## Phase 3, chunk C: two-way native comment sync -/

/-- `phase3_two_way_sync.extract_sync_id`: `re.search(rf"\[{prefix}:(\S+)\]", body)`.
The leftmost occurrence of `"[" + prefix + ":"` whose following run of
non-whitespace characters contains a `]` at index ≥ 1 yields the text up to the
last such `]` (greedy `\S+` with backtracking). -/
def trySyncCapture (rest : LC) : Option LC :=
  let run := rest.takeWhile isNonWS
  match ((List.range run.length).filter
      (fun i => decide (1 ≤ i) && decide (run.get? i = some ']'))).getLast? with
  | some k => some (run.take k)
  | none => none

def extractSyncId (pfx : LC) : LC → Option LC
  | [] => none
  | c :: rest =>
      if ('[' :: pfx ++ [':']).isPrefixOf (c :: rest) then
        match trySyncCapture ((c :: rest).drop (pfx.length + 2)) with
        | some cap => some cap
        | none => extractSyncId pfx rest
      else extractSyncId pfx rest

/-- `a or b` for strings. -/
def pyOr (a b : LC) : LC := if a ≠ [] then a else b

def aCommentAuthorName (c : AComment) : LC :=
  if c.hasAuthor then
    pyOr (c.authorName.getD []) (pyOr (c.authorEmail.getD []) "Unknown Airtable User".data)
  else "Unknown Airtable User".data

def jCommentAuthorName (c : JComment) : LC :=
  (c.authorDisplayName).getD "Unknown Jira User".data

/-- The body written to Jira when mirroring an Airtable comment. -/
def jiraMirrorBody (c : AComment) : LC :=
  aCommentAuthorName c ++ " (from Airtable at ".data ++ c.createdFmt ++ "):\n".data
    ++ c.text ++ "\n\n[AirtableCommentID:".data ++ c.id ++ [']']

/-- The text written to Airtable when mirroring a Jira comment. -/
def airtableMirrorText (c : JComment) : LC :=
  jCommentAuthorName c ++ " (from Jira at ".data ++ c.createdFmt ++ "):\n".data
    ++ c.body ++ "\n\n[JiraCommentID:".data ++ c.id ++ [']']

structure CommentSyncResult where
  /-- Bodies of the comments the pass decides to add on the Jira side. -/
  plannedJira : List LC
  /-- Texts of the comments the pass decides to add on the Airtable side. -/
  plannedAirtable : List LC
  actions : List LC
deriving Repr, DecidableEq

/-- `phase3_two_way_sync.sync_native_comments`: the decision logic for one
linked pair.  In live mode each planned comment is immediately added remotely;
in dry-run mode only the action strings are recorded. -/
def sync_native_comments (jiraComments : List JComment) (airtableComments : List AComment) :
    CommentSyncResult :=
  let syncedFromAirtableIds : List (Option LC) :=
    jiraComments.map (fun c => extractSyncId "AirtableCommentID".data c.body)
  let syncedFromJiraIds : List (Option LC) :=
    airtableComments.map (fun c => extractSyncId "JiraCommentID".data c.text)
  let newFromAirtable :=
    airtableComments.filter (fun a => ¬ (some a.id) ∈ syncedFromAirtableIds)
  let newFromJira :=
    jiraComments.filter (fun j =>
      ¬ (some j.id) ∈ syncedFromJiraIds
        ∧ extractSyncId "AirtableCommentID".data j.body = none)
  { plannedJira := newFromAirtable.map jiraMirrorBody
    plannedAirtable := newFromJira.map airtableMirrorText
    actions :=
      newFromAirtable.map (fun a =>
        "Jira: Plan to add new comment from Airtable user '".data
          ++ aCommentAuthorName a ++ "'.".data)
      ++ newFromJira.map (fun j =>
        "Airtable: Plan to add new comment from Jira user '".data
          ++ jCommentAuthorName j ++ "'.".data) }

/-! ## `phase2_airtable_to_jira.run_phase2` -/

structure P2Action where
  airtable_id : LC
  airtable_summary : Option AValue := none
  actions : List LC := []
  new_jira_key : Option LC := none
  error : Option LC := none
deriving Repr

/-- Oracle for `jira_client.create_issue`. -/
structure P2Oracle where
  createIssue : ATRecord → Except LC LC := fun r => .ok ("NEW-".data ++ r.id)

/-- One iteration of the phase-2 loop over Airtable records.  The state is
`(maps, action log)`; note that the loop never writes to either map. -/
def phase2ProcessRecord (cfg : Config) (orc : P2Oracle) (st : Maps × List P2Action)
    (record : ATRecord) : Maps × List P2Action :=
  let (m, log) := st
  if (alGet m.2 record.id).isSome then (m, log)
  else
    let statusOk : Bool :=
      match alGet record.fields cfg.statusField with
      | some (.str s) => decide (s ≠ []) && decide (s ∈ cfg.creationStatuses)
      | _ => false
    if ¬ statusOk then (m, log)
    else
      let headline := alGet record.fields cfg.headlineField
      let headlineTruthy : Bool := match headline with
        | some v => v.truthy
        | none => false
      if ¬ headlineTruthy then
        (m, log ++ [{ airtable_id := record.id, airtable_summary := headline,
                      error := some "Missing 'Full Name' in Airtable.".data }])
      else
        let desc := format_full_jira_description cfg record.id record.fields
          cfg.airtableBaseIdConfig cfg.airtableTableNameConfig
        let _ := desc
        let createRes : Except LC LC :=
          if cfg.dryRun then .ok ("DRYRUN_JIRA_FOR_".data ++ record.id)
          else orc.createIssue record
        match createRes with
        | .error e =>
            (m, log ++ [{ airtable_id := record.id, airtable_summary := headline,
                          actions := ["Jira: Plan to create issue.".data],
                          error := some ("Jira Create Failed: ".data ++ e) }])
        | .ok newKey =>
            let statusActs : List LC :=
              match alGet record.fields cfg.statusField with
              | some (.str s) =>
                  match alGet STATUS_MAPPING_AIRTABLE_TO_JIRA s with
                  | some tgt =>
                      ["Jira: Plan to set status of new issue to '".data ++ tgt ++ "'.".data]
                  | none => ["Jira: WARNING - No status mapping.".data]
              | _ => []
            (m, log ++ [{ airtable_id := record.id, airtable_summary := headline,
                          actions := "Jira: Plan to create issue.".data :: statusActs,
                          new_jira_key := some newKey }])

/-- `run_phase2`: fold over the Airtable snapshot.  The shared maps are passed
in (by reference in the source) and returned so that any mutation of them
would be visible; the source contains no assignment to either map in this
phase. -/
def run_phase2 (cfg : Config) (orc : P2Oracle) (records : List ATRecord) (m : Maps) :
    Maps × List P2Action :=
  records.foldl (phase2ProcessRecord cfg orc) (m, [])

/-! ## `phase3_two_way_sync.run_phase3` -/

structure P3Action where
  jira_key : LC
  airtable_id : LC
  actions : List LC
  error : Option LC
deriving Repr, DecidableEq

/-- The loop body of `run_phase3` for one `(jira_key, airtable_id)` pair,
including the double-append reporting logic of lines 244-269. -/
def processPair (cfg : Config) (issuesMap : List (LC × JiraIssue))
    (recordsMap : List (LC × ATRecord)) (acc : List P3Action) (jiraKey airtableId : LC) :
    List P3Action :=
  match alGet issuesMap jiraKey, alGet recordsMap airtableId with
  | some issue, some record =>
      let (_, acts, err) :=
        statusSyncChunk cfg (getattrCU cfg "AIRTABLE_LAST_MODIFIED_FIELD_NAME".data)
          jiraKey airtableId record.fields issue.statusName issue.updatedParse
      let acc1 :=
        if acts.length > 1 ∨ err.isSome then
          acc ++ [{ jira_key := jiraKey, airtable_id := airtableId, actions := acts,
                    error := err }]
        else acc
      let acts2 :=
        if cfg.enableCommentSync then
          acts ++ (sync_native_comments issue.comments record.comments).actions
        else acts
      if acts2.length > 0 ∨ err.isSome then
        let filtered := acts2.filter (fun a => a ≠ "Status Sync: OK.".data)
        if filtered ≠ [] ∨ err.isSome then
          acc1 ++ [{ jira_key := jiraKey, airtable_id := airtableId, actions := filtered,
                     error := err }]
        else acc1
      else acc1
  | _, _ => acc

/-- `run_phase3`: process every linked pair, then run the sprint-management
tail.  Lines 276-279 (`board_id = common_utils.JIRA_BOARD_ID_CONFIG` and the
`if not board_id` check) are dedented to function level in the source, so the
attribute access executes unconditionally on every invocation, outside any
`try`. -/
def run_phase3 (cfg : Config) (pairs : List (LC × LC)) (issuesMap : List (LC × JiraIssue))
    (recordsMap : List (LC × ATRecord)) : Except LC (List P3Action) := do
  let logs := pairs.foldl (fun acc p => processPair cfg issuesMap recordsMap acc p.1 p.2) []
  let boardId ← getattrCU cfg "JIRA_BOARD_ID_CONFIG".data
  let _ := boardId
  pure logs

/-! ## Concrete instances used by the claim theorems -/

def c2Cfg : Config := { fieldOfVar := fun _ => none, dryRun := true }

def c2Record : ATRecord :=
  { id := "rec00000000000009".data
    fields := [("Status".data, .str "Idea: Evaluated".data),
               ("Full Name".data, .str "Test idea".data)] }

def c3JiraComment : JComment :=
  { id := "10001".data, body := "hello".data,
    authorDisplayName := some "Jane Doe".data, createdFmt := "2024-01-01 10:00".data }

/-- The Airtable comment created by the first `sync_native_comments` pass to
mirror `c3JiraComment` (its text is exactly the mirror text the pass writes,
and it carries the `[JiraCommentID:...]` origin tag). -/
def c3MirrorOnAirtable : AComment :=
  { id := "comAAA1".data, text := airtableMirrorText c3JiraComment,
    hasAuthor := true, authorName := some "Sync Bot".data,
    createdFmt := "2024-01-01 10:05".data }

def c7Cfg : Config := { fieldOfVar := fun _ => none }

def c8Cfg : Config := { fieldOfVar := fun v => some v }

def c8Fields : List (LC × AValue) :=
  [("AIRTABLE_OBSERVATION_FIELD".data, .str "a|b".data)]

/-- Everything mapped on the Airtable-id side so far is an already processed
record id. -/
def Dom2Sub (m : Maps) (ids : List LC) : Prop :=
  ∀ i, (alGet m.2 i).isSome → i ∈ ids

def c4Records : List ATRecord :=
  [{ id := "rec00000000000001".data, fields := [("JKEY".data, .str "AB-1".data)] },
   { id := "rec00000000000002".data, fields := [("JKEY".data, .str "AB-2".data)] }]

def c4Cfg : Config := { fieldOfVar := fun _ => none, jiraKeyField := some "JKEY".data }

def c5Maps : Maps :=
  ([("AB-1".data, "rec00000000000001".data)], [("rec00000000000001".data, "AB-1".data)])

def c5Record : ATRecord :=
  { id := "rec00000000000002".data, fields := [("JKEY".data, .str " AB-1 ".data)] }

def c5Desc : LC :=
  joinLines ["intro text".data, [],
    METADATA_BLOCK_HEADER,
    METADATA_REC_ID_PREFIX ++ "rec00000000000001".data,
    METADATA_URL_PREFIX ++ "https://airtable.com/a/b/rec00000000000001".data]

def c5Issue : JiraIssue := { key := "CD-7".data, description := some c5Desc }

def c6Cfg : Config :=
  { fieldOfVar := fun _ => none
    tsParse := fun s => if s = "TS".data then some 5 else none }

def c6Fields : List (LC × AValue) :=
  [("Status".data, .str "Monitor".data), ("LastMod".data, .str "TS".data)]

/-- One complete metadata block as a block of lines (header line, record-id
line, experiment-id line, URL line). -/
def metadataBlockText (recId expId url : LC) : LC :=
  joinLines [METADATA_BLOCK_HEADER, METADATA_REC_ID_PREFIX ++ recId,
    METADATA_EXP_ID_PREFIX ++ expId, METADATA_URL_PREFIX ++ url]

def c9Rec1 : LC := "rec11111111111111".data

def c9Rec2 : LC := "rec22222222222222".data

def c7WCfg : Config := { fieldOfVar := fun _ => none, experimentIdField := some "EXPF".data }

def c7WFields : List (LC × AValue) := [("EXPF".data, .str "W1T1".data)]

def c8WCfg : Config :=
  { fieldOfVar := fun v => some v, experimentIdField := some "EXPF".data }

def c8WFields : List (LC × AValue) :=
  ("EXPF".data, .str "W1T1".data)
    :: AIRTABLE_TO_JIRA_DESC_TABLE_MAP.map (fun vh => (vh.1, .str "x".data))

theorem alGet_alSet_self {κ α : Type} [DecidableEq κ] (d : List (κ × α)) (k : κ) (v : α) :
    alGet (alSet d k v) k = some v := by
  induction d with
  | nil => simp [alGet, alSet]
  | cons p t ih =>
      by_cases h : p.1 = k
      · simp [alSet, alGet, h]
      · simp [alSet, alGet, h, ih]

theorem alGet_alSet_ne {κ α : Type} [DecidableEq κ] (d : List (κ × α)) (k k' : κ) (v : α)
    (h : k' ≠ k) : alGet (alSet d k v) k' = alGet d k' := by
  induction d with
  | nil => simp [alGet, alSet, Ne.symm h]
  | cons p t ih =>
      obtain ⟨pk, pv⟩ := p
      by_cases hp : pk = k
      · subst hp
        have hne : ¬ pk = k' := fun hh => h hh.symm
        simp [alSet, alGet, hne]
      · by_cases hp' : pk = k'
        · simp [alSet, alGet, hp, hp', h]
        · simp [alSet, alGet, hp, hp', ih]

/-! ## Claim C1 -/

/-- Claim C1 (refuted, code bug): `run_phase3` raises an uncaught
`AttributeError` out of the phase on every invocation — even with zero linked
pairs — because line 276 (`board_id = common_utils.JIRA_BOARD_ID_CONFIG`) is
dedented out of the sprint-management `if` and `common_utils` defines no such
attribute.  (`run_phase1` has the analogous uncaught
`common_utils.AIRTABLE_IDEA_NAME_FIELD` access at its line 90.) -/
theorem c1_run_phase3_always_raises (cfg : Config) (pairs : List (LC × LC))
    (issuesMap : List (LC × JiraIssue)) (recordsMap : List (LC × ATRecord)) :
    run_phase3 cfg pairs issuesMap recordsMap =
      .error ("AttributeError: module 'common_utils' has no attribute 'JIRA_BOARD_ID_CONFIG'".data) := by
  have h : ¬ ("JIRA_BOARD_ID_CONFIG".data ∈ commonUtilsModuleAttrs) := by decide
  simp only [run_phase3, getattrCU, if_neg h]
  rfl

/-! ## Claim C2 -/

/-- Claim C2 (refuted): a dry-run `run_phase2` pass over one new Airtable
record processes it (the action log carries the simulated new Jira key), yet
afterwards neither shared map contains the pair — contradicting the claim that
the pair is present in both maps after the propagator's pass, in dry-run mode
as well as live mode. -/
theorem c2_counterexample :
    (run_phase2 c2Cfg {} [c2Record] ([], [])).1 = ([], []) ∧
    (run_phase2 c2Cfg {} [c2Record] ([], [])).2.map (fun a => a.new_jira_key)
      = [some "DRYRUN_JIRA_FOR_rec00000000000009".data] ∧
    alGet (run_phase2 c2Cfg {} [c2Record] ([], [])).1.1
      "DRYRUN_JIRA_FOR_rec00000000000009".data = none ∧
    alGet (run_phase2 c2Cfg {} [c2Record] ([], [])).1.2 "rec00000000000009".data = none := by
  decide

theorem phase2ProcessRecord_fst (cfg : Config) (orc : P2Oracle)
    (st : Maps × List P2Action) (record : ATRecord) :
    (phase2ProcessRecord cfg orc st record).1 = st.1 := by
  obtain ⟨m, log⟩ := st
  simp only [phase2ProcessRecord]
  split
  · rfl
  · split
    · rfl
    · split
      · rfl
      · split <;> rfl

/-- Claim C2 (amended): `run_phase2` never registers anything in the shared
mapping — after its pass both maps are exactly what they were before, for
every snapshot, oracle and mode (dry-run or live); the only map registration
in the codebase is `run_phase1`'s live-mode creation step (lines 124-125). -/
theorem c2_phase2_leaves_maps_unchanged (cfg : Config) (orc : P2Oracle)
    (records : List ATRecord) (m : Maps) :
    (run_phase2 cfg orc records m).1 = m := by
  unfold run_phase2
  suffices h : ∀ st : Maps × List P2Action,
      (records.foldl (phase2ProcessRecord cfg orc) st).1 = st.1 from h (m, [])
  induction records with
  | nil => intro st; rfl
  | cons r t ih =>
      intro st
      rw [List.foldl_cons, ih (phase2ProcessRecord cfg orc st r),
        phase2ProcessRecord_fst]

/-! ## Claim C3 -/

/-- Claim C3 (refuted, code bug): starting from one untagged Jira comment and
no Airtable comments, the first pass mirrors it to Airtable; running
`sync_native_comments` again on the resulting unchanged comment sets creates
one additional mirrored comment (the Airtable mirror is echoed back to Jira),
although that comment carries the `[JiraCommentID:...]` tag marking it as a
mirror from the other system.  The Airtable→Jira direction never checks the
origin tag (source lines 36-37), unlike the Jira→Airtable direction
(line 67). -/
theorem c3_second_run_creates_a_mirror :
    (sync_native_comments [c3JiraComment] []).plannedAirtable
        = [airtableMirrorText c3JiraComment] ∧
    (sync_native_comments [c3JiraComment] []).plannedJira = [] ∧
    extractSyncId "JiraCommentID".data c3MirrorOnAirtable.text = some "10001".data ∧
    (sync_native_comments [c3JiraComment] [c3MirrorOnAirtable]).plannedJira
        = [jiraMirrorBody c3MirrorOnAirtable] ∧
    (sync_native_comments [c3JiraComment] [c3MirrorOnAirtable]).plannedAirtable = [] := by
  decide

/-! ## Claim C7, counterexample -/

/-- Claim C7 (refuted as universally stated): for the record id `"X"` — a
legal opaque TableRecord identifier — parsing the rendered description
recovers no record id at all (the parser's pattern accepts only
`rec` + 14 alphanumerics), rather than recovering `"X"` exactly. -/
theorem c7_counterexample :
    (parse_metadata_from_jira_description
      (format_full_jira_description c7Cfg "X".data [] "appB".data "tblT".data)).airtable_record_id
      = none := by
  decide

/-! ## Claim C8, counterexample -/

/-- Claim C8 (refuted as stated): a non-reference field whose value contains a
pipe renders as `a\|b`, but the parser splits on every `|` without unescaping,
so the round trip returns `a\` — neither the original value `a|b` nor its
escaped form `a\|b`. -/
theorem c8_counterexample :
    alGet (parse_jira_description_table_to_airtable_fields c8Cfg
        (format_full_jira_description c8Cfg [] c8Fields [] []))
      (some "AIRTABLE_OBSERVATION_FIELD".data) = some "a\\".data ∧
    ("a\\".data ≠ "a|b".data) ∧ ("a\\".data ≠ "a\\|b".data) := by
  decide

/-! ## Claim C4 -/

theorem consistent_nil : Consistent ([], []) :=
  ⟨fun k v h => by simp [alGet] at h, fun v k h => by simp [alGet] at h⟩

/-- Registering a fresh link (both sides unmapped) preserves mutual
consistency of the two maps. -/
theorem consistent_registerLink {m : Maps} {k i : LC} (hc : Consistent m)
    (hk : alGet m.1 k = none) (hi : alGet m.2 i = none) :
    Consistent (registerLink m k i) := by
  obtain ⟨h1, h2⟩ := hc
  constructor
  · intro k' v' hv
    simp only [registerLink] at hv ⊢
    by_cases hkk : k' = k
    · subst hkk
      rw [alGet_alSet_self] at hv
      cases hv
      exact alGet_alSet_self _ _ _
    · rw [alGet_alSet_ne _ _ _ _ hkk] at hv
      have hv2 := h1 k' v' hv
      have hvne : v' ≠ i := by
        intro he
        subst he
        rw [hv2] at hi
        cases hi
      rw [alGet_alSet_ne _ _ _ _ hvne]
      exact hv2
  · intro v' k' hv
    simp only [registerLink] at hv ⊢
    by_cases hii : v' = i
    · subst hii
      rw [alGet_alSet_self] at hv
      cases hv
      exact alGet_alSet_self _ _ _
    · rw [alGet_alSet_ne _ _ _ _ hii] at hv
      have hv2 := h2 v' k' hv
      have hkne : k' ≠ k := by
        intro he
        subst he
        rw [hv2] at hk
        cases hk
      rw [alGet_alSet_ne _ _ _ _ hkne]
      exact hv2

theorem dom2sub_mono {m : Maps} {ids ids' : List LC} (h : Dom2Sub m ids)
    (hsub : ∀ x ∈ ids, x ∈ ids') : Dom2Sub m ids' :=
  fun i hi => hsub i (h i hi)

theorem step1_preserves (cfg : Config) (m : Maps) (logs : List MapLog) (r : ATRecord)
    (done : List LC) (hc : Consistent m) (hd : Dom2Sub m done) (hfresh : r.id ∉ done) :
    Consistent (step1ProcessRecord cfg (m, logs) r).1 ∧
      Dom2Sub (step1ProcessRecord cfg (m, logs) r).1 (done ++ [r.id]) := by
  have hdone' : Dom2Sub m (done ++ [r.id]) :=
    dom2sub_mono hd (fun x hx => List.mem_append_left _ hx)
  have hifresh : alGet m.2 r.id = none := by
    cases h : alGet m.2 r.id with
    | none => rfl
    | some x => exact absurd (hd r.id (by rw [h]; rfl)) hfresh
  unfold step1ProcessRecord
  split
  case h_1 jkRaw _ =>
    split
    · split
      case h_1 existing hget =>
        split
        · exact ⟨hc, hdone'⟩
        case isFalse hne =>
          push_neg at hne
          subst hne
          exact absurd (hd r.id (by rw [hc.1 _ _ hget]; rfl)) hfresh
      case h_2 hget =>
        have hreg := consistent_registerLink hc hget hifresh
        refine ⟨hreg, ?_⟩
        intro i hi
        by_cases hir : i = r.id
        · subst hir
          exact List.mem_append_right _ (by simp)
        · rw [show ((alSet m.1 (pyStrip jkRaw) r.id, alSet m.2 r.id (pyStrip jkRaw)),
              logs).1.2 = alSet m.2 r.id (pyStrip jkRaw) from rfl,
            alGet_alSet_ne _ _ _ _ hir] at hi
          exact List.mem_append_left _ (hd i hi)
    · split <;> exact ⟨hc, hdone'⟩
  case h_2 => exact ⟨hc, hdone'⟩
  case h_3 => exact ⟨hc, hdone'⟩

theorem step1_fold (cfg : Config) (records : List ATRecord) :
    ∀ (st : Maps × List MapLog) (done : List LC),
      Consistent st.1 → Dom2Sub st.1 done →
      (∀ r ∈ records, r.id ∉ done) → (records.map ATRecord.id).Nodup →
      Consistent (records.foldl (step1ProcessRecord cfg) st).1 ∧
      Dom2Sub (records.foldl (step1ProcessRecord cfg) st).1 (done ++ records.map ATRecord.id) := by
  induction records with
  | nil =>
      intro st done hc hd _ _
      simpa using ⟨hc, hd⟩
  | cons r t ih =>
      intro st done hc hd hnotin hnd
      obtain ⟨m, logs⟩ := st
      have hstep := step1_preserves cfg m logs r done hc hd
        (hnotin r (List.mem_cons_self _ _))
      rw [List.map_cons, List.nodup_cons] at hnd
      have hnotin' : ∀ r' ∈ t, r'.id ∉ done ++ [r.id] := by
        intro r' hr'
        rw [List.mem_append]
        rintro (h | h)
        · exact hnotin r' (List.mem_cons_of_mem _ hr') h
        · simp only [List.mem_singleton] at h
          exact hnd.1 (h ▸ List.mem_map_of_mem ATRecord.id hr')
      have := ih (step1ProcessRecord cfg (m, logs) r) (done ++ [r.id])
        hstep.1 hstep.2 hnotin' hnd.2
      rw [List.foldl_cons]
      refine ⟨this.1, ?_⟩
      have happ : done ++ [r.id] ++ t.map ATRecord.id
          = done ++ (r :: t).map ATRecord.id := by
        simp
      rw [← happ]
      exact this.2

theorem step2_preserves (cfg : Config) (st : Maps × List MapLog) (issue : JiraIssue)
    (hc : Consistent st.1) : Consistent (step2ProcessIssue cfg st issue).1 := by
  obtain ⟨m, logs⟩ := st
  unfold step2ProcessIssue
  split
  · exact hc
  case isFalse hkey =>
    have hkeyn : alGet m.1 issue.key = none := by
      cases h : alGet m.1 issue.key with
      | none => rfl
      | some x => exact absurd (by rw [h]; rfl) hkey
    split
    case h_1 d =>
      split
      · split
        case h_1 recId hp =>
          split
          case h_1 existingKey hget =>
            split
            · exact hc
            case isFalse hne =>
              push_neg at hne
              subst hne
              rw [hc.2 _ _ hget] at hkeyn
              cases hkeyn
          case h_2 hget => exact consistent_registerLink hc hkeyn hget
        case h_2 => exact hc
      · exact hc
    case h_2 => exact hc

theorem step2_fold (cfg : Config) (issues : List JiraIssue) :
    ∀ st : Maps × List MapLog, Consistent st.1 →
      Consistent ((issues.foldl (step2ProcessIssue cfg) st).1) := by
  induction issues with
  | nil => intro st hc; exact hc
  | cons issue t ih =>
      intro st hc
      rw [List.foldl_cons]
      exact ih _ (step2_preserves cfg st issue hc)

/-- Claim C4 (confirmed): for every snapshot whose Airtable record ids are
pairwise distinct, the two maps returned by `build_initial_mappings` are
mutually consistent — every key→id entry is mirrored by the id→key map and
vice versa (so each key maps to at most one id and each id to at most one
key); moreover the registration step the Creation Propagator uses
(`run_phase1` lines 124-125) preserves this consistency whenever it links a
hitherto-unmapped key to a fresh record id. -/
theorem c4_identity_bijection (cfg : Config) (issues : List JiraIssue)
    (records : List ATRecord) (hnd : (records.map ATRecord.id).Nodup) :
    Consistent (build_initial_mappings cfg issues records).1 ∧
    (∀ (m : Maps) (k i : LC), Consistent m → alGet m.1 k = none → alGet m.2 i = none →
      Consistent (registerLink m k i)) := by
  constructor
  · unfold build_initial_mappings
    apply step2_fold
    exact (step1_fold cfg records (([], []), []) [] consistent_nil
      (fun i hi => by simp [alGet] at hi) (by simp) hnd).1
  · intro m k i hc h1 h2
    exact consistent_registerLink hc h1 h2

theorem c4_identity_bijection_witness :
    (c4Records.map ATRecord.id).Nodup ∧
    (Consistent (build_initial_mappings c4Cfg [] c4Records).1 ∧
      (∀ (m : Maps) (k i : LC), Consistent m → alGet m.1 k = none → alGet m.2 i = none →
        Consistent (registerLink m k i))) :=
  ⟨by decide, c4_identity_bijection c4Cfg [] c4Records (by decide)⟩

/-! ## Claim C5 -/

/-- Claim C5 (confirmed): first-wins conflict atomicity.  Whenever the
cross-reference pass (step 1) finds a record whose Jira key is already mapped
to a different record id, or the metadata-recovery pass (step 2) finds an
issue whose recovered record id is already mapped to a different key, both
mapping dictionaries are returned exactly as they were and a conflict warning
is appended to the log. -/
theorem c5_conflict_first_wins (cfg : Config) (m : Maps) (logs : List MapLog)
    (record : ATRecord) (issue : JiraIssue) :
    (∀ jkRaw existing, cfg.jiraKeyField.bind (alGet record.fields) = some (.str jkRaw) →
      jkRaw ≠ [] → matchesJiraKeyPat (pyStrip jkRaw) = true →
      alGet m.1 (pyStrip jkRaw) = some existing → existing ≠ record.id →
      step1ProcessRecord cfg (m, logs) record
        = (m, logs ++ [.conflictJiraKey (pyStrip jkRaw) record.id existing])) ∧
    (∀ d recId existingKey, alGet m.1 issue.key = none → issue.description = some d →
      d ≠ [] → (parse_metadata_from_jira_description d).airtable_record_id = some recId →
      alGet m.2 recId = some existingKey → existingKey ≠ issue.key →
      step2ProcessIssue cfg (m, logs) issue
        = (m, logs ++ [.conflictRecId issue.key recId existingKey])) := by
  constructor
  · intro jkRaw existing hjk hne hmatch hget hconf
    simp [step1ProcessRecord, hjk, hne, hmatch, hget, hconf]
  · intro d recId existingKey hkey hdesc hdne hparse hget hconf
    simp [step2ProcessIssue, hkey, hdesc, hdne, hparse, hget, hconf]

theorem c5_conflict_first_wins_witness :
    step1ProcessRecord c4Cfg (c5Maps, []) c5Record
      = (c5Maps, [.conflictJiraKey "AB-1".data "rec00000000000002".data
          "rec00000000000001".data]) ∧
    step2ProcessIssue c4Cfg (c5Maps, []) c5Issue
      = (c5Maps, [.conflictRecId "CD-7".data "rec00000000000001".data "AB-1".data]) :=
  ⟨(c5_conflict_first_wins c4Cfg c5Maps [] c5Record c5Issue).1 " AB-1 ".data
      "rec00000000000001".data (by decide) (by decide) (by decide) (by decide) (by decide),
   (c5_conflict_first_wins c4Cfg c5Maps [] c5Record c5Issue).2 c5Desc
      "rec00000000000001".data "AB-1".data (by decide) rfl (by decide) (by decide)
      (by decide) (by decide)⟩

/-! ## Claim C6 -/

/-- Claim C6 (confirmed): when the two last-modified timestamps of an
out-of-sync pair are equal, the status-reconciliation chunk attempts no
status mutation on either side.  Both strict comparisons in the source are
false at a tie, so the chunk falls through to no-op; this holds for every
value of the `AIRTABLE_LAST_MODIFIED_FIELD_NAME` module attribute lookup — in
particular for the repository as it stands, where that attribute is missing
and the chunk's `try` body raises before any timestamp comparison (second
conjunct). -/
theorem c6_status_tie_no_mutation (cfg : Config) (jiraKey airtableId : LC)
    (fields : List (LC × AValue)) (jiraStatus : LC) (t : Int) :
    (∀ (fn s : LC), alGet fields fn = some (.str s) → s ≠ [] → cfg.tsParse s = some t →
      (statusSyncChunk cfg (.ok fn) jiraKey airtableId fields jiraStatus (some t)).1 = []) ∧
    (∀ (e : LC) (jup : Option Int),
      (statusSyncChunk cfg (.error e) jiraKey airtableId fields jiraStatus jup).1 = []) := by
  constructor
  · intro fn s hget hsne hts
    unfold statusSyncChunk
    split
    next muts acts heq =>
      show muts = []
      unfold statusSyncTry at heq
      split at heq
      · exact Except.noConfusion heq
      · dsimp only at heq
        split at heq
        · exact Except.noConfusion heq
        · split at heq
          · rw [hget] at heq
            dsimp only at heq
            rw [if_pos hsne] at heq
            simp only [Option.some_bind, hts] at heq
            rw [if_neg (fun hc => absurd hc.1 (lt_irrefl t)),
              if_neg (fun hc => absurd hc.1 (lt_irrefl t))] at heq
            simp only [Except.ok.injEq, Prod.mk.injEq] at heq
            exact heq.1.symm
          · simp only [Except.ok.injEq, Prod.mk.injEq] at heq
            exact heq.1.symm
    next => rfl
  · intro e jup
    unfold statusSyncChunk
    split
    next muts acts heq =>
      show muts = []
      unfold statusSyncTry at heq
      split at heq
      · exact Except.noConfusion heq
      · dsimp only at heq
        split at heq
        · exact Except.noConfusion heq
        · split at heq
          · split at heq
            · exact Except.noConfusion heq
            · exact Except.noConfusion heq
          · simp only [Except.ok.injEq, Prod.mk.injEq] at heq
            exact heq.1.symm
    next => rfl

theorem c6_status_tie_no_mutation_witness :
    (statusSyncChunk c6Cfg (.ok "LastMod".data) "AB-1".data "rec00000000000001".data
      c6Fields "Backlog".data (some 5)).1 = [] ∧
    (statusSyncChunk c6Cfg
      (.error "AttributeError: module 'common_utils' has no attribute 'AIRTABLE_LAST_MODIFIED_FIELD_NAME'".data)
      "AB-1".data "rec00000000000001".data c6Fields "Backlog".data (some 5)).1 = [] :=
  ⟨(c6_status_tie_no_mutation c6Cfg "AB-1".data "rec00000000000001".data c6Fields
      "Backlog".data 5).1 "LastMod".data "TS".data (by decide) (by decide) (by decide),
   (c6_status_tie_no_mutation c6Cfg "AB-1".data "rec00000000000001".data c6Fields
      "Backlog".data 5).2
     "AttributeError: module 'common_utils' has no attribute 'AIRTABLE_LAST_MODIFIED_FIELD_NAME'".data
     (some 5)⟩

/-! ## Claim C10 -/

/-- Claim C10 (confirmed): when the record's status label has no entry in the
table→external status mapping and the issue's status has no entry in the
external→table mapping, the pair is treated as in sync: the chunk returns the
`Status Sync: OK.` action with no mutations and no error, for every value of
the Jira-timestamp parse and of the last-modified attribute lookup (so neither
timestamp is ever consulted). -/
theorem c10_unmapped_statuses_in_sync (cfg : Config) (lastModAttr : Except LC LC)
    (jiraKey airtableId : LC) (fields : List (LC × AValue)) (jiraStatus s : LC)
    (jup : Option Int)
    (hst : alGet fields cfg.statusField = some (.str s))
    (h1 : alGet STATUS_MAPPING_AIRTABLE_TO_JIRA s = none)
    (h2 : alGet STATUS_MAPPING_JIRA_TO_AIRTABLE jiraStatus = none) :
    statusSyncTry cfg lastModAttr jiraKey airtableId fields jiraStatus jup
      = .ok ([], ["Status Sync: OK.".data]) := by
  unfold statusSyncTry
  rw [hst]
  simp only [Option.some_bind, h1, h2]
  rfl

theorem c10_unmapped_statuses_in_sync_witness :
    statusSyncTry c6Cfg
      (.error "AttributeError: module 'common_utils' has no attribute 'AIRTABLE_LAST_MODIFIED_FIELD_NAME'".data)
      "AB-1".data "rec00000000000001".data [("Status".data, .str "Weird status".data)]
      "Odd status".data none = .ok ([], ["Status Sync: OK.".data]) :=
  c10_unmapped_statuses_in_sync c6Cfg _ _ _ _ _ "Weird status".data none
    (by decide) (by decide) (by decide)

/-! ## Supporting lemmas: prefixes -/

theorem isPrefixOf_append_self (l t : LC) : l.isPrefixOf (l ++ t) = true :=
  List.isPrefixOf_iff_prefix.mpr (List.prefix_append l t)

theorem not_isPrefixOf_of_head_ne {a b : Char} (as bs : LC) (h : a ≠ b) :
    (a :: as).isPrefixOf (b :: bs) = false := by
  simp [List.isPrefixOf, h]

theorem isPrefixOf_of_append_of_le {p q : LC} (x : LC) (h : p.isPrefixOf (q ++ x) = true)
    (hle : p.length ≤ q.length) : p.isPrefixOf q = true := by
  apply List.isPrefixOf_iff_prefix.mpr
  obtain ⟨t, ht⟩ := List.isPrefixOf_iff_prefix.mp h
  have hp : p = (q ++ x).take p.length := by
    rw [← ht, List.take_left]
  rw [hp, List.take_append_of_le_length hle]
  exact List.take_prefix _ _

/-! ## Supporting lemmas: split and join -/

theorem splitOnChar_no_sep {sep : Char} {a : LC} (h : ∀ c ∈ a, c ≠ sep) :
    splitOnChar sep a = [a] := by
  induction a with
  | nil => rfl
  | cons c r ih =>
      have hc : c ≠ sep := h c (List.mem_cons_self _ _)
      have hr := ih (fun x hx => h x (List.mem_cons_of_mem _ hx))
      simp [splitOnChar, hc, hr]

theorem splitOnChar_append {sep : Char} {a : LC} (r : LC) (h : ∀ c ∈ a, c ≠ sep) :
    splitOnChar sep (a ++ sep :: r) = a :: splitOnChar sep r := by
  induction a with
  | nil => simp [splitOnChar]
  | cons c t ih =>
      have hc : c ≠ sep := h c (List.mem_cons_self _ _)
      have ht := ih (fun x hx => h x (List.mem_cons_of_mem _ hx))
      simp [splitOnChar, hc, ht]

theorem hasNoNL_iff {a : LC} : hasNoNL a = true ↔ ∀ c ∈ a, c ≠ '\n' := by
  simp [hasNoNL, List.all_eq_true]

theorem splitLines_noNL {a : LC} (h : hasNoNL a = true) : splitLines a = [a] :=
  splitOnChar_no_sep (hasNoNL_iff.mp h)

theorem splitLines_append {a : LC} (r : LC) (h : hasNoNL a = true) :
    splitLines (a ++ '\n' :: r) = a :: splitLines r :=
  splitOnChar_append r (hasNoNL_iff.mp h)

theorem joinLines_append {ls1 ls2 : List LC} (h1 : ls1 ≠ []) (h2 : ls2 ≠ []) :
    joinLines (ls1 ++ ls2) = joinLines ls1 ++ '\n' :: joinLines ls2 := by
  induction ls1 with
  | nil => exact absurd rfl h1
  | cons l t ih =>
      cases t with
      | nil =>
          cases ls2 with
          | nil => exact absurd rfl h2
          | cons b bs => simp [joinLines]
      | cons l2 t2 =>
          show l ++ '\n' :: joinLines ((l2 :: t2) ++ ls2)
              = (l ++ '\n' :: joinLines (l2 :: t2)) ++ '\n' :: joinLines ls2
          rw [ih (by simp)]
          simp [List.append_assoc]

theorem splitLines_joinLines {ls : List LC} (h : ∀ l ∈ ls, hasNoNL l = true)
    (hne : ls ≠ []) : splitLines (joinLines ls) = ls := by
  induction ls with
  | nil => exact absurd rfl hne
  | cons l t ih =>
      cases t with
      | nil => exact splitLines_noNL (h l (List.mem_cons_self _ _))
      | cons l2 t2 =>
          have hjl : joinLines (l :: l2 :: t2) = l ++ '\n' :: joinLines (l2 :: t2) := rfl
          rw [hjl, splitLines_append _ (h l (List.mem_cons_self _ _)),
            ih (fun x hx => h x (List.mem_cons_of_mem _ hx)) (by simp)]

theorem findSome?_eq_none_of {α β : Type} (f : α → Option β) {l : List α}
    (h : ∀ x ∈ l, f x = none) : List.findSome? f l = none := by
  induction l with
  | nil => rfl
  | cons a t ih =>
      rw [List.findSome?_cons, h a (List.mem_cons_self _ _)]
      exact ih (fun x hx => h x (List.mem_cons_of_mem _ hx))

theorem findSome?_append_of_none {α β : Type} (f : α → Option β) {l1 : List α}
    (l2 : List α) (h : ∀ x ∈ l1, f x = none) :
    List.findSome? f (l1 ++ l2) = List.findSome? f l2 := by
  rw [List.findSome?_append, findSome?_eq_none_of f h, Option.none_or]

theorem findSome?_cons_some {α β : Type} (f : α → Option β) (a : α) (l : List α)
    {b : β} (h : f a = some b) : List.findSome? f (a :: l) = some b := by
  rw [List.findSome?_cons, h]

theorem findSome?_cons_none {α β : Type} (f : α → Option β) (a : α) (l : List α)
    (h : f a = none) : List.findSome? f (a :: l) = List.findSome? f l := by
  rw [List.findSome?_cons, h]

/-! ## Supporting lemmas: strip -/

theorem trimLeft_cons_ws {c : Char} (x : LC) (h : isPyWS c = true) :
    trimLeft (c :: x) = trimLeft x := by
  simp [trimLeft, List.dropWhile_cons, h]

theorem trimLeft_cons_not_ws {c : Char} (x : LC) (h : isPyWS c = false) :
    trimLeft (c :: x) = c :: x := by
  simp [trimLeft, List.dropWhile_cons, h]

theorem trimRight_append_ws {c : Char} (x : LC) (h : isPyWS c = true) :
    trimRight (x ++ [c]) = trimRight x := by
  simp [trimRight, List.reverse_append, List.dropWhile_cons, h]

theorem trimRight_append_not_ws {c : Char} (x : LC) (h : isPyWS c = false) :
    trimRight (x ++ [c]) = x ++ [c] := by
  simp [trimRight, List.reverse_append, List.dropWhile_cons, h]

theorem trimRight_prefix (l : LC) : trimRight l <+: l := by
  obtain ⟨t, ht⟩ := List.dropWhile_suffix (l := l.reverse) isPyWS
  exact ⟨t.reverse, by rw [trimRight, ← List.reverse_append, ht, List.reverse_reverse]⟩

theorem pyStrip_space_wrap (x : LC) : pyStrip ((' ' :: x) ++ [' ']) = pyStrip x := by
  show pyStrip (' ' :: (x ++ [' '])) = pyStrip x
  rw [pyStrip, trimLeft_cons_ws _ (by decide), pyStrip]
  rcases h : trimLeft x with _ | ⟨d, ds⟩
  · have hx : ∀ c ∈ x, isPyWS c := by
      intro c hc
      exact (List.dropWhile_eq_nil_iff.mp h) c hc
    have hnil : trimLeft (x ++ [' ']) = [] := by
      apply List.dropWhile_eq_nil_iff.mpr
      intro c hc
      rcases List.mem_append.mp hc with hc | hc
      · exact hx c hc
      · simp only [List.mem_singleton] at hc
        subst hc
        decide
    rw [hnil]
  · have happ : trimLeft (x ++ [' ']) = trimLeft x ++ [' '] := by
      rw [trimLeft, List.dropWhile_append]
      rw [show x.dropWhile isPyWS = trimLeft x from rfl, h]
      rfl
    rw [happ, h, trimRight_append_ws _ (by decide)]

theorem pyStrip_pipe_wrapped (x : LC) : pyStrip (('|' :: x) ++ ['|']) = ('|' :: x) ++ ['|'] := by
  show pyStrip ('|' :: (x ++ ['|'])) = _
  rw [pyStrip, trimLeft_cons_not_ws _ (by decide),
    show ('|' :: (x ++ ['|'])) = ('|' :: x) ++ ['|'] by simp,
    trimRight_append_not_ws _ (by decide)]

/-- A line whose first character is neither whitespace nor `'|'` is skipped by
the description-table parser's `startswith("| **")` filter. -/
theorem pipe_check_false {c : Char} (rest : LC) (hws : isPyWS c = false) (hc : c ≠ '|') :
    ("| **".data.isPrefixOf (pyStrip (c :: rest))) = false := by
  rw [pyStrip, trimLeft_cons_not_ws _ hws]
  rcases htr : trimRight (c :: rest) with _ | ⟨d, ds⟩
  · decide
  · obtain ⟨t, ht⟩ := trimRight_prefix (c :: rest)
    rw [htr] at ht
    have hd : d = c := by injection ht
    subst hd
    exact not_isPrefixOf_of_head_ne _ _ (fun h => hc h.symm)

/-! ## Supporting lemmas: sanitization -/

theorem escPipes_of_no_pipe {s : LC} (h : ∀ c ∈ s, c ≠ '|') : escPipes s = s := by
  induction s with
  | nil => rfl
  | cons c r ih =>
      rw [escPipes, if_neg (h c (List.mem_cons_self _ _)),
        ih (fun x hx => h x (List.mem_cons_of_mem _ hx))]

theorem nlToSpace_of_noNL {s : LC} (h : hasNoNL s = true) : nlToSpace s = s := by
  induction s with
  | nil => rfl
  | cons c r ih =>
      have hc : c ≠ '\n' := hasNoNL_iff.mp h c (List.mem_cons_self _ _)
      have hr : hasNoNL r = true :=
        hasNoNL_iff.mpr fun x hx => hasNoNL_iff.mp h x (List.mem_cons_of_mem _ hx)
      show (if c = '\n' then ' ' else c) :: nlToSpace r = c :: r
      rw [if_neg hc, ih hr]

theorem sanitizeCell_id {s : LC} (hp : ∀ c ∈ s, c ≠ '|') (hn : hasNoNL s = true) :
    sanitizeCell s = s := by
  rw [sanitizeCell, escPipes_of_no_pipe hp, nlToSpace_of_noNL hn]

theorem hasNoNL_nlToSpace (s : LC) : hasNoNL (nlToSpace s) = true := by
  apply hasNoNL_iff.mpr
  intro c hc
  obtain ⟨d, _, hd⟩ := List.mem_map.mp hc
  intro hcn
  subst hcn
  by_cases h : d = '\n' <;> simp [h] at hd

theorem hasNoNL_sanitizeCell (s : LC) : hasNoNL (sanitizeCell s) = true :=
  hasNoNL_nlToSpace _

theorem hasNoNL_append {a b : LC} (ha : hasNoNL a = true) (hb : hasNoNL b = true) :
    hasNoNL (a ++ b) = true := by
  apply hasNoNL_iff.mpr
  intro c hc
  rcases List.mem_append.mp hc with h | h
  · exact hasNoNL_iff.mp ha c h
  · exact hasNoNL_iff.mp hb c h

/-! ## Supporting lemmas: association lists and appends -/

theorem alGet_append {κ α : Type} [DecidableEq κ] (a b : List (κ × α)) (k : κ) :
    alGet (a ++ b) k = (alGet a k).or (alGet b k) := by
  induction a with
  | nil => simp [alGet]
  | cons p t ih =>
      by_cases h : p.1 = k
      · simp [alGet, h]
      · simp [alGet, h, ih]

theorem alSet_append_fresh {κ α : Type} [DecidableEq κ] {d : List (κ × α)} {k : κ} (v : α)
    (h : alGet d k = none) : alSet d k v = d ++ [(k, v)] := by
  induction d with
  | nil => rfl
  | cons p t ih =>
      by_cases hp : p.1 = k
      · rw [alGet, if_pos hp] at h
        cases h
      · rw [alGet, if_neg hp] at h
        rw [alSet, if_neg hp, ih h]
        rfl

/-! ## Supporting lemmas: takeWhile and drop -/

theorem takeWhile_append_stop {p : Char → Bool} {a : LC} {b : Char} (y : LC)
    (ha : a.all p = true) (hb : p b = false) :
    (a ++ b :: y).takeWhile p = a := by
  induction a with
  | nil => simp [List.takeWhile_cons, hb]
  | cons c t ih =>
      rw [List.all_cons, Bool.and_eq_true] at ha
      simp [List.takeWhile_cons, ha.1, ih ha.2]

theorem not_isPrefixOf_append_long {p q : LC} (x : LC) (hle : p.length ≤ q.length)
    (hpq : p.isPrefixOf q = false) : p.isPrefixOf (q ++ x) = false := by
  cases h : p.isPrefixOf (q ++ x) with
  | false => rfl
  | true =>
      rw [isPrefixOf_of_append_of_le x h hle] at hpq
      cases hpq

/-! ## Supporting lemmas: the metadata line matchers -/

theorem recLineParse_recLine {g : LC} (h : checkRecIdGroup g = true) :
    recLineParse (METADATA_REC_ID_PREFIX ++ g) = some g := by
  rw [recLineParse, if_pos (isPrefixOf_append_self _ _)]
  rw [show (METADATA_REC_ID_PREFIX ++ g).drop METADATA_REC_ID_PREFIX.length = g from
    List.drop_left _ _]
  rw [if_pos h]

theorem recLineParse_none_of_no_pfx {line : LC}
    (h : METADATA_REC_ID_PREFIX.isPrefixOf line = false) : recLineParse line = none := by
  rw [recLineParse]
  rw [h]
  rfl

theorem expLineParse_none_of_no_pfx {line : LC}
    (h : (toLowerStr METADATA_EXP_ID_PREFIX).isPrefixOf (toLowerStr line) = false) :
    expLineParse line = none := by
  rw [expLineParse, h]
  rfl

theorem urlLineParse_none_of_no_pfx {line : LC}
    (h : METADATA_URL_PREFIX.isPrefixOf line = false) : urlLineParse line = none := by
  rw [urlLineParse, h]
  rfl

theorem recLineParse_pipe (x : LC) : recLineParse ('|' :: x) = none :=
  recLineParse_none_of_no_pfx
    (show ('A' :: "irtable Record ID: ".data).isPrefixOf ('|' :: x) = false from
      not_isPrefixOf_of_head_ne _ _ (by decide))

theorem expLineParse_pipe (x : LC) : expLineParse ('|' :: x) = none :=
  expLineParse_none_of_no_pfx
    (show ('e' :: "xperiment id: ".data).isPrefixOf ('|' :: toLowerStr x) = false from
      not_isPrefixOf_of_head_ne _ _ (by decide))

theorem urlLineParse_pipe (x : LC) : urlLineParse ('|' :: x) = none :=
  urlLineParse_none_of_no_pfx
    (show ('A' :: "irtable URL: ".data).isPrefixOf ('|' :: x) = false from
      not_isPrefixOf_of_head_ne _ _ (by decide))

theorem recLineParse_expLine (e : LC) :
    recLineParse (METADATA_EXP_ID_PREFIX ++ e) = none :=
  recLineParse_none_of_no_pfx
    (show ('A' :: "irtable Record ID: ".data).isPrefixOf ('E' :: ("xperiment ID: ".data ++ e))
        = false from not_isPrefixOf_of_head_ne _ _ (by decide))

theorem expLineParse_recLine (g : LC) :
    expLineParse (METADATA_REC_ID_PREFIX ++ g) = none := by
  apply expLineParse_none_of_no_pfx
  rw [show toLowerStr (METADATA_REC_ID_PREFIX ++ g)
      = toLowerStr METADATA_REC_ID_PREFIX ++ toLowerStr g from List.map_append _ _ _]
  exact show ('e' :: "xperiment id: ".data).isPrefixOf
      ('a' :: ("irtable record id: ".data ++ toLowerStr g)) = false from
    not_isPrefixOf_of_head_ne _ _ (by decide)

theorem urlLineParse_recLine (g : LC) :
    urlLineParse (METADATA_REC_ID_PREFIX ++ g) = none :=
  urlLineParse_none_of_no_pfx
    (not_isPrefixOf_append_long _ (by decide) (by decide))

theorem urlLineParse_expLine (e : LC) :
    urlLineParse (METADATA_EXP_ID_PREFIX ++ e) = none :=
  urlLineParse_none_of_no_pfx
    (show ('A' :: "irtable URL: ".data).isPrefixOf ('E' :: ("xperiment ID: ".data ++ e))
        = false from not_isPrefixOf_of_head_ne _ _ (by decide))

theorem expLineParse_expLine {e : LC} (hwt : matchesWT e = true)
    (hupper : toUpperStr e = e) :
    expLineParse (METADATA_EXP_ID_PREFIX ++ e) = some e := by
  rw [expLineParse]
  rw [show toLowerStr (METADATA_EXP_ID_PREFIX ++ e)
      = toLowerStr METADATA_EXP_ID_PREFIX ++ toLowerStr e from List.map_append _ _ _]
  rw [if_pos (isPrefixOf_append_self _ _)]
  rw [show (METADATA_EXP_ID_PREFIX ++ e).drop METADATA_EXP_ID_PREFIX.length = e from
    List.drop_left _ _]
  rw [if_pos hwt, hupper]

theorem urlGroupOk_mkUrl {base table recId : LC}
    (hb : base.all urlSegP = true) (hbne : base ≠ [])
    (ht : table.all urlSegP = true) (htne : table ≠ [])
    (hr : recId.all isNonWS = true) (hrne : recId ≠ []) :
    urlGroupOk (mkAirtableUrl base table recId) = true := by
  rw [urlGroupOk, mkAirtableUrl, List.drop_left, urlCheckFrom,
    takeWhile_append_stop _ hb (by decide), List.drop_left, urlAfterSeg1,
    takeWhile_append_stop _ ht (by decide), List.drop_left, urlAfterSeg2]
  simp [isPrefixOf_append_self, hbne, htne, hrne, hr]

theorem urlLineParse_urlLine {base table recId : LC}
    (hb : base.all urlSegP = true) (hbne : base ≠ [])
    (ht : table.all urlSegP = true) (htne : table ≠ [])
    (hr : recId.all isNonWS = true) (hrne : recId ≠ []) :
    urlLineParse (METADATA_URL_PREFIX ++ mkAirtableUrl base table recId)
      = some (mkAirtableUrl base table recId) := by
  rw [urlLineParse, if_pos (isPrefixOf_append_self _ _)]
  rw [show (METADATA_URL_PREFIX ++ mkAirtableUrl base table recId).drop
      METADATA_URL_PREFIX.length = mkAirtableUrl base table recId from List.drop_left _ _]
  rw [if_pos (urlGroupOk_mkUrl hb hbne ht htne hr hrne)]

/-! ## Well-formedness consequences of the matchers -/

theorem isAlnumAZ_nonWS {c : Char} (h : isAlnumAZ c = true) :
    c ≠ '\n' ∧ isNonWS c = true := by
  constructor
  · intro hc
    subst hc
    exact absurd h (by decide)
  · rw [isNonWS]
    cases hws : isPyWS c
    · rfl
    · exfalso
      rw [isPyWS] at hws
      simp only [Bool.or_eq_true, decide_eq_true_eq] at hws
      rcases hws with ((((h1 | h1) | h1) | h1) | h1) | h1 <;>
        (subst h1; exact absurd h (by decide))

theorem checkRecIdGroup_facts {g : LC} (h : checkRecIdGroup g = true) :
    g ≠ [] ∧ hasNoNL g = true ∧ g.all isNonWS = true := by
  rw [checkRecIdGroup, Bool.and_eq_true, Bool.and_eq_true] at h
  obtain ⟨⟨hpfx, _⟩, halnum⟩ := h
  obtain ⟨t, ht⟩ := List.isPrefixOf_iff_prefix.mp hpfx
  have htg : t = g.drop 3 := by
    rw [← ht]
    rfl
  subst htg
  refine ⟨?_, ?_, ?_⟩
  · rw [← ht]
    simp
  · rw [← ht]
    apply hasNoNL_append (by decide)
    apply hasNoNL_iff.mpr
    intro c hc hcn
    have := (List.all_eq_true.mp halnum) c hc
    exact absurd rfl ((hcn ▸ (isAlnumAZ_nonWS this).1))
  · rw [← ht, List.all_append, Bool.and_eq_true]
    refine ⟨by decide, ?_⟩
    apply List.all_eq_true.mpr
    intro c hc
    exact (isAlnumAZ_nonWS ((List.all_eq_true.mp halnum) c hc)).2

theorem isDigit09_ne_nl {c : Char} (h : isDigit09 c = true) : c ≠ '\n' := by
  intro hc
  subst hc
  exact absurd h (by decide)

theorem isNonWS_ne_nl {c : Char} (h : isNonWS c = true) : c ≠ '\n' := by
  intro hc
  subst hc
  exact absurd h (by decide)

theorem hasNoNL_of_all_nonWS {s : LC} (h : s.all isNonWS = true) : hasNoNL s = true :=
  hasNoNL_iff.mpr fun c hc => isNonWS_ne_nl ((List.all_eq_true.mp h) c hc)

theorem urlSegP_nonWS {c : Char} (h : urlSegP c = true) : isNonWS c = true := by
  rw [urlSegP, Bool.and_eq_true] at h
  exact h.2

theorem hasNoNL_mkUrl {base table recId : LC} (hb : base.all urlSegP = true)
    (ht : table.all urlSegP = true) (hr : recId.all isNonWS = true) :
    hasNoNL (mkAirtableUrl base table recId) = true := by
  rw [mkAirtableUrl]
  apply hasNoNL_append (by decide)
  apply hasNoNL_append
  · exact hasNoNL_of_all_nonWS (List.all_eq_true.mpr fun c hc =>
      urlSegP_nonWS ((List.all_eq_true.mp hb) c hc))
  · apply hasNoNL_iff.mpr
    intro c hc
    rcases List.mem_cons.mp hc with hc | hc
    · subst hc
      decide
    · rcases List.mem_append.mp hc with hc | hc
      · exact isNonWS_ne_nl (urlSegP_nonWS ((List.all_eq_true.mp ht) c hc))
      · rcases List.mem_cons.mp hc with hc | hc
        · subst hc
          decide
        · exact isNonWS_ne_nl ((List.all_eq_true.mp hr) c hc)

theorem matchesWT_facts {e : LC} (h : matchesWT e = true) :
    e ≠ [] ∧ hasNoNL e = true := by
  cases e with
  | nil => cases h
  | cons w rest =>
      rw [matchesWT] at h
      simp only [Bool.and_eq_true, Bool.or_eq_true, decide_eq_true_eq] at h
      obtain ⟨hw, hds, hmatch⟩ := h
      refine ⟨by simp, ?_⟩
      apply hasNoNL_iff.mpr
      intro c hc
      rcases List.mem_cons.mp hc with hcw | hcr
      · subst hcw
        rcases hw with hw | hw <;> (subst hw; decide)
      · obtain ⟨t2, ht2⟩ := List.takeWhile_prefix (p := isDigit09) (l := rest)
        have ht2d : t2 = rest.drop (rest.takeWhile isDigit09).length := by
          have hcg := congrArg (List.drop (rest.takeWhile isDigit09).length) ht2
          rw [List.drop_left] at hcg
          exact hcg.symm ▸ rfl
        rw [← ht2] at hcr
        rcases List.mem_append.mp hcr with hc1 | hc1
        · exact isDigit09_ne_nl (List.mem_takeWhile_imp hc1)
        · rcases hdrop : rest.drop (rest.takeWhile isDigit09).length with _ | ⟨t, rest2⟩
          · rw [hdrop] at hmatch
            simp at hmatch
          · rw [hdrop] at hmatch
            simp only [Bool.and_eq_true, Bool.or_eq_true, decide_eq_true_eq] at hmatch
            obtain ⟨⟨htc, _⟩, hall2⟩ := hmatch
            rw [ht2d, hdrop] at hc1
            rcases List.mem_cons.mp hc1 with hc2 | hc2
            · subst hc2
              rcases htc with htc | htc <;> (subst htc; decide)
            · exact isDigit09_ne_nl ((List.all_eq_true.mp hall2) c hc2)

/-! ## Supporting lemmas: strip idempotence -/

theorem dropWhile_head_not {p : Char → Bool} {l : LC} {c : Char} {r : LC}
    (h : l.dropWhile p = c :: r) : p c = false := by
  induction l with
  | nil => simp [List.dropWhile] at h
  | cons a t ih =>
      rw [List.dropWhile_cons] at h
      by_cases hp : p a = true
      · exact ih (by rwa [if_pos hp] at h)
      · rw [if_neg hp] at h
        injection h with h1 _
        subst h1
        cases hpa : p a
        · rfl
        · exact absurd hpa hp

theorem dropWhile_dropWhile {p : Char → Bool} (l : LC) :
    (l.dropWhile p).dropWhile p = l.dropWhile p := by
  rcases hd : l.dropWhile p with _ | ⟨c, r⟩
  · rfl
  · rw [List.dropWhile_cons, dropWhile_head_not hd]
    simp

theorem trimRight_trimRight (l : LC) : trimRight (trimRight l) = trimRight l := by
  rw [trimRight, trimRight, List.reverse_reverse, dropWhile_dropWhile]

theorem pyStrip_head_not_ws {s : LC} {c : Char} {r : LC} (h : pyStrip s = c :: r) :
    isPyWS c = false := by
  obtain ⟨t, ht⟩ := trimRight_prefix (trimLeft s)
  rw [show trimRight (trimLeft s) = pyStrip s from rfl, h] at ht
  rw [trimLeft, List.cons_append] at ht
  exact dropWhile_head_not (l := s) ht.symm

theorem pyStrip_trimRight_id (s : LC) : trimRight (pyStrip s) = pyStrip s := by
  rw [pyStrip, trimRight_trimRight]

theorem pyStrip_append_nl (s : LC) : pyStrip (pyStrip s ++ ['\n']) = pyStrip s := by
  rcases hs : pyStrip s with _ | ⟨c, r⟩
  · decide
  · have hc := pyStrip_head_not_ws hs
    rw [pyStrip, trimLeft, List.cons_append, List.dropWhile_cons, hc]
    simp only [Bool.false_eq_true, if_false]
    rw [← List.cons_append, trimRight_append_ws _ (by decide), ← hs, pyStrip_trimRight_id]

/-! ## Supporting lemmas: double newlines -/

theorem hasNoNL_cons {c : Char} {x : LC} (hc : c ≠ '\n') (hx : hasNoNL x = true) :
    hasNoNL (c :: x) = true := by
  apply hasNoNL_iff.mpr
  intro a ha
  rcases List.mem_cons.mp ha with h | h
  · subst h; exact hc
  · exact hasNoNL_iff.mp hx a h

theorem append_ne_nil_left {a : LC} (b : LC) (ha : a ≠ []) : a ++ b ≠ [] := by
  cases a with
  | nil => exact absurd rfl ha
  | cons c t => simp

theorem no_dnl_of_noNL {l : LC} (h : hasNoNL l = true) : hasDoubleNL l = false := by
  induction l with
  | nil => rfl
  | cons c r ih =>
      cases r with
      | nil => rfl
      | cons d r2 =>
          rw [hasDoubleNL]
          have hc : decide (c = '\n') = false :=
            decide_eq_false (hasNoNL_iff.mp h c (by simp))
          rw [hc, Bool.false_and, Bool.false_or]
          exact ih (hasNoNL_iff.mpr fun x hx => hasNoNL_iff.mp h x (by simp [hx]))

theorem hasDoubleNL_append_left : ∀ (a b : LC), hasNoNL a = true →
    hasDoubleNL (a ++ b) = hasDoubleNL b
  | [], _, _ => rfl
  | [c], b, h => by
      cases b with
      | nil => rfl
      | cons d b2 =>
          rw [show (([c] ++ (d :: b2)) : LC) = c :: d :: b2 from rfl, hasDoubleNL]
          have hc : decide (c = '\n') = false :=
            decide_eq_false (hasNoNL_iff.mp h c (by simp))
          rw [hc, Bool.false_and, Bool.false_or]
  | c :: c2 :: a2, b, h => by
      rw [show (((c :: c2 :: a2) ++ b) : LC) = c :: c2 :: (a2 ++ b) from rfl, hasDoubleNL]
      have hc : decide (c = '\n') = false :=
        decide_eq_false (hasNoNL_iff.mp h c (by simp))
      rw [hc, Bool.false_and, Bool.false_or,
        show ((c2 :: (a2 ++ b)) : LC) = (c2 :: a2) ++ b from rfl,
        hasDoubleNL_append_left (c2 :: a2) b
          (hasNoNL_iff.mpr fun x hx => hasNoNL_iff.mp h x (by simp [hx, List.mem_cons]))]

theorem no_dnl_nl_joinLines : ∀ (ls : List LC), (∀ l ∈ ls, hasNoNL l = true) →
    (∀ l ∈ ls, l ≠ []) → ls ≠ [] → hasDoubleNL ('\n' :: joinLines ls) = false
  | [], _, _, hne => absurd rfl hne
  | l :: ls, hnl, hne, _ => by
      rcases hl : l with _ | ⟨c, l2⟩
      · exact absurd hl (hne l (by simp))
      · subst hl
        have hc : decide (c = '\n') = false :=
          decide_eq_false (hasNoNL_iff.mp (hnl (c :: l2) (by simp)) c (by simp))
        cases ls with
        | nil =>
            show hasDoubleNL ('\n' :: c :: l2) = false
            rw [hasDoubleNL, hc, Bool.and_false, Bool.false_or]
            exact no_dnl_of_noNL (hnl (c :: l2) (by simp))
        | cons m ls2 =>
            show hasDoubleNL ('\n' :: c :: (l2 ++ '\n' :: joinLines (m :: ls2))) = false
            rw [hasDoubleNL, hc, Bool.and_false, Bool.false_or,
              show ((c :: (l2 ++ '\n' :: joinLines (m :: ls2))) : LC)
                = (c :: l2) ++ '\n' :: joinLines (m :: ls2) from rfl,
              hasDoubleNL_append_left (c :: l2) _ (hnl (c :: l2) (by simp))]
            exact no_dnl_nl_joinLines (m :: ls2) (fun x hx => hnl x (by simp [hx]))
              (fun x hx => hne x (by simp [hx])) (by simp)

/-! ## Supporting lemmas: occurrences of the metadata pattern -/

theorem metaPat_prefix_shape {l : LC} (h : metaPat.isPrefixOf l = true) :
    ∃ r, l = '\n' :: '\n' :: r := by
  cases l with
  | nil => exact absurd h (by decide)
  | cons c1 t =>
      cases t with
      | nil =>
          rw [show metaPat = '\n' :: '\n' :: METADATA_BLOCK_HEADER from rfl] at h
          simp [List.isPrefixOf] at h
      | cons c2 t2 =>
          rw [show metaPat = '\n' :: '\n' :: METADATA_BLOCK_HEADER from rfl] at h
          simp only [List.isPrefixOf, Bool.and_eq_true, beq_iff_eq] at h
          obtain ⟨h1, h2, _⟩ := h
          exact ⟨t2, by rw [← h1, ← h2]⟩

theorem no_occur_of_no_dnl : ∀ {l : LC}, hasDoubleNL l = false → countOccur metaPat l = 0 := by
  intro l
  induction l with
  | nil => intro _; rfl
  | cons c r ih =>
      intro h
      have hr : hasDoubleNL r = false := by
        cases r with
        | nil => rfl
        | cons c2 r2 =>
            cases hb : hasDoubleNL (c2 :: r2)
            · rfl
            · rw [hasDoubleNL, hb] at h
              simp at h
      have hpf : List.isPrefixOf metaPat (c :: r) = false := by
        cases hck : List.isPrefixOf metaPat (c :: r)
        · rfl
        · obtain ⟨r2, hr2⟩ := metaPat_prefix_shape hck
          rw [hr2, hasDoubleNL] at h
          simp at h
      rw [countOccur, hpf]
      simp only [Bool.false_eq_true, if_false, Nat.zero_add]
      exact ih hr

theorem splitFirst_some {pat : LC} : ∀ {s pre suf : LC},
    splitFirst pat s = some (pre, suf) →
    pre ++ suf = s ∧ pat.isPrefixOf suf = true ∧
      ∀ j, j < pre.length → pat.isPrefixOf (s.drop j) = false := by
  intro s
  induction s with
  | nil =>
      intro pre suf h
      rw [splitFirst] at h
      by_cases hp : List.isPrefixOf pat ([] : LC) = true
      · rw [if_pos hp] at h
        simp only [Option.some.injEq, Prod.mk.injEq] at h
        obtain ⟨h1, h2⟩ := h
        subst h1; subst h2
        exact ⟨rfl, hp, fun j hj => absurd hj (by simp)⟩
      · rw [if_neg hp] at h
        exact absurd h (by simp)
  | cons c r ih =>
      intro pre suf h
      rw [splitFirst] at h
      by_cases hp : List.isPrefixOf pat (c :: r) = true
      · rw [if_pos hp] at h
        simp only [Option.some.injEq, Prod.mk.injEq] at h
        obtain ⟨h1, h2⟩ := h
        subst h1; subst h2
        exact ⟨rfl, hp, fun j hj => absurd hj (by simp)⟩
      · rw [if_neg hp] at h
        rcases hr : splitFirst pat r with _ | ⟨pre2, suf2⟩
        · rw [hr] at h
          exact absurd h (by simp)
        · rw [hr] at h
          simp only [Option.some.injEq, Prod.mk.injEq] at h
          obtain ⟨h1, h2⟩ := h
          subst h1; subst h2
          obtain ⟨ha, hb, hc⟩ := ih hr
          refine ⟨by rw [List.cons_append, ha], hb, ?_⟩
          intro j hj
          cases j with
          | zero =>
              simp only [List.drop_zero]
              cases hck : List.isPrefixOf pat (c :: r)
              · rfl
              · exact absurd hck hp
          | succ j2 =>
              simp only [List.drop_succ_cons]
              exact hc j2 (Nat.lt_of_succ_lt_succ hj)

theorem splitFirst_none {pat : LC} : ∀ {s : LC}, splitFirst pat s = none →
    ∀ j, pat.isPrefixOf (s.drop j) = false := by
  intro s
  induction s with
  | nil =>
      intro h j
      rw [splitFirst] at h
      by_cases hp : List.isPrefixOf pat ([] : LC) = true
      · rw [if_pos hp] at h
        exact absurd h (by simp)
      · simp only [List.drop_nil]
        cases hck : List.isPrefixOf pat ([] : LC)
        · rfl
        · exact absurd hck hp
  | cons c r ih =>
      intro h j
      rw [splitFirst] at h
      by_cases hp : List.isPrefixOf pat (c :: r) = true
      · rw [if_pos hp] at h
        exact absurd h (by simp)
      · rw [if_neg hp] at h
        rcases hr : splitFirst pat r with _ | ⟨pre2, suf2⟩
        · cases j with
          | zero =>
              simp only [List.drop_zero]
              cases hck : List.isPrefixOf pat (c :: r)
              · rfl
              · exact absurd hck hp
          | succ j2 =>
              simp only [List.drop_succ_cons]
              exact ih hr j2
        · rw [hr] at h
          exact absurd h (by simp)

theorem splitFirst_of_first_occurrence {pat : LC} : ∀ (a b : LC),
    pat.isPrefixOf b = true →
    (∀ j, j < a.length → pat.isPrefixOf ((a ++ b).drop j) = false) →
    splitFirst pat (a ++ b) = some (a, b) := by
  intro a
  induction a with
  | nil =>
      intro b hb _
      cases b with
      | nil => rw [List.nil_append, splitFirst, if_pos hb]
      | cons c r => rw [List.nil_append, splitFirst, if_pos hb]
  | cons c a2 ih =>
      intro b hb hno
      have hneg : ¬ (List.isPrefixOf pat (c :: (a2 ++ b)) = true) := by
        have h0 := hno 0 (by simp)
        simp only [List.drop_zero, List.cons_append] at h0
        simp [h0]
      have hrec : splitFirst pat (a2 ++ b) = some (a2, b) := by
        apply ih b hb
        intro j hj
        have hj1 := hno (j + 1) (by exact Nat.succ_lt_succ hj)
        simpa using hj1
      rw [List.cons_append, splitFirst, if_neg hneg, hrec]

theorem countOccur_append_of_none {pat : LC} : ∀ {a : LC} (b : LC),
    (∀ j, j < a.length → pat.isPrefixOf ((a ++ b).drop j) = false) →
    countOccur pat (a ++ b) = countOccur pat b := by
  intro a
  induction a with
  | nil => intro b _; rfl
  | cons c a2 ih =>
      intro b hno
      have h0 := hno 0 (by simp)
      simp only [List.drop_zero, List.cons_append] at h0
      rw [List.cons_append, countOccur, h0]
      simp only [Bool.false_eq_true, if_false, Nat.zero_add]
      apply ih
      intro j hj
      have hj1 := hno (j + 1) (by exact Nat.succ_lt_succ hj)
      simpa using hj1

theorem isPrefixOf_append_ext {p a : LC} (b : LC) (h : p.isPrefixOf a = true) :
    p.isPrefixOf (a ++ b) = true := by
  rw [List.isPrefixOf_iff_prefix] at h ⊢
  exact h.trans (List.prefix_append a b)

theorem isPrefixOf_append_split {p a b : LC} (h : p.isPrefixOf (a ++ b) = true)
    (hle : a.length ≤ p.length) : (p.drop a.length).isPrefixOf b = true := by
  rw [List.isPrefixOf_iff_prefix] at h ⊢
  obtain ⟨t, ht⟩ := h
  have h2 := congrArg (List.drop a.length) ht
  rw [List.drop_append_eq_append_drop, List.drop_append_eq_append_drop,
    Nat.sub_eq_zero_of_le hle, Nat.sub_self, List.drop_zero, List.drop_zero,
    List.drop_length, List.nil_append] at h2
  exact ⟨t, h2⟩

theorem take_isPrefixOf {p q : LC} (n : Nat) (h : p.isPrefixOf q = true) :
    (p.take n).isPrefixOf (q.take n) = true := by
  rw [List.isPrefixOf_iff_prefix] at h ⊢
  obtain ⟨t, ht⟩ := h
  subst ht
  rw [List.take_append_eq_append_take]
  exact ⟨_, rfl⟩

theorem metaPat_straddle : ∀ k, k < 32 → 0 < k →
    ((metaPat.drop k).take 2).isPrefixOf ['\n', '\n'] = false := by decide

theorem metaPat_not_prefix_nl_self (body : LC) :
    List.isPrefixOf metaPat ('\n' :: (metaPat ++ body)) = false := by
  have hh : List.isPrefixOf METADATA_BLOCK_HEADER
      ('\n' :: (METADATA_BLOCK_HEADER ++ body)) = false :=
    not_isPrefixOf_of_head_ne _ _ (by decide)
  show (('\n' == '\n') && (('\n' == '\n')
      && List.isPrefixOf METADATA_BLOCK_HEADER
          ('\n' :: (METADATA_BLOCK_HEADER ++ body)))) = false
  rw [hh, Bool.and_false, Bool.and_false]

theorem pyStrip_infix_self (s : LC) : pyStrip s <:+: s := by
  obtain ⟨u, hu⟩ : trimLeft s <:+ s := List.dropWhile_suffix isPyWS
  obtain ⟨v, hv⟩ : pyStrip s <+: trimLeft s := trimRight_prefix (trimLeft s)
  exact ⟨u, v, by rw [List.append_assoc, hv, hu]⟩

theorem infix_isPrefixOf_drop {p s : LC} (h : p <:+: s) :
    ∃ j, j + p.length ≤ s.length ∧ List.isPrefixOf p (s.drop j) = true := by
  obtain ⟨x, y, hxy⟩ := h
  refine ⟨x.length, ?_, ?_⟩
  · rw [← hxy]
    simp [List.length_append]
  · rw [← hxy, List.append_assoc, List.drop_append_eq_append_drop, List.drop_length,
      Nat.sub_self, List.drop_zero, List.nil_append]
    exact isPrefixOf_append_self p y

theorem not_infix_of_splitFirst_some {pre suf d : LC}
    (h : splitFirst metaPat d = some (pre, suf)) : ¬ metaPat <:+: pyStrip pre := by
  intro hinf
  obtain ⟨hd, _, hfirst⟩ := splitFirst_some h
  have hinf2 : metaPat <:+: pre := hinf.trans (pyStrip_infix_self pre)
  obtain ⟨j, hjle, hjpf⟩ := infix_isPrefixOf_drop hinf2
  have hjlt : j < pre.length := by
    have h32 : metaPat.length = 32 := by decide
    omega
  have hdrop : d.drop j = pre.drop j ++ suf := by
    rw [← hd, List.drop_append_eq_append_drop,
      Nat.sub_eq_zero_of_le (Nat.le_of_lt hjlt), List.drop_zero]
  have hpd : List.isPrefixOf metaPat (d.drop j) = true := by
    rw [hdrop]
    exact isPrefixOf_append_ext suf hjpf
  exact Bool.noConfusion ((hfirst j hjlt).symm.trans hpd)

theorem not_infix_of_splitFirst_none {d : LC}
    (h : splitFirst metaPat d = none) : ¬ metaPat <:+: pyStrip d := by
  intro hinf
  have hinf2 := hinf.trans (pyStrip_infix_self d)
  obtain ⟨j, _, hjpf⟩ := infix_isPrefixOf_drop hinf2
  exact Bool.noConfusion ((splitFirst_none h j).symm.trans hjpf)

theorem no_occur_in_clean {tp app : LC}
    (hni : ¬ metaPat <:+: tp)
    (happ2 : app.take 2 = ['\n', '\n']) :
    ∀ j, j < tp.length → List.isPrefixOf metaPat ((tp ++ app).drop j) = false := by
  intro j hj
  cases hck : List.isPrefixOf metaPat ((tp ++ app).drop j)
  · rfl
  · exfalso
    have hdj : (tp ++ app).drop j = tp.drop j ++ app := by
      rw [List.drop_append_eq_append_drop, Nat.sub_eq_zero_of_le (Nat.le_of_lt hj),
        List.drop_zero]
    rw [hdj] at hck
    by_cases hfit : metaPat.length ≤ (tp.drop j).length
    · have hpx := isPrefixOf_of_append_of_le app hck hfit
      apply hni
      obtain ⟨t, ht⟩ := List.isPrefixOf_iff_prefix.mp hpx
      obtain ⟨u, hu⟩ : tp.drop j <:+ tp := List.drop_suffix j tp
      exact ⟨u, t, by rw [List.append_assoc, ht, hu]⟩
    · push_neg at hfit
      have hsp := isPrefixOf_append_split hck (Nat.le_of_lt hfit)
      have hkpos : 0 < (tp.drop j).length := by
        rw [List.length_drop]
        omega
      have hklt : (tp.drop j).length < 32 := by
        have h32 : metaPat.length = 32 := by decide
        omega
      have htk := take_isPrefixOf 2 hsp
      rw [happ2] at htk
      rw [metaPat_straddle (tp.drop j).length hklt hkpos] at htk
      exact Bool.noConfusion htk

theorem countOccur_metaBlock (tp : LC) (ls : List LC)
    (hls1 : ∀ l ∈ METADATA_BLOCK_HEADER :: ls, hasNoNL l = true)
    (hls2 : ∀ l ∈ METADATA_BLOCK_HEADER :: ls, l ≠ [])
    (hlsne : ls ≠ [])
    (hfits : ∀ j, j < tp.length → List.isPrefixOf metaPat
      ((tp ++ '\n' :: joinLines (('\n' :: '\n' :: METADATA_BLOCK_HEADER) :: ls)).drop j)
        = false) :
    countOccur metaPat
      (tp ++ '\n' :: joinLines (('\n' :: '\n' :: METADATA_BLOCK_HEADER) :: ls)) = 1 := by
  rcases ls with _ | ⟨l2, ls2⟩
  · exact absurd rfl hlsne
  · rw [countOccur_append_of_none _ hfits]
    have h1 := metaPat_not_prefix_nl_self ('\n' :: joinLines (l2 :: ls2))
    have h2 : List.isPrefixOf metaPat (metaPat ++ ('\n' :: joinLines (l2 :: ls2))) = true :=
      isPrefixOf_append_self _ _
    have h3 : countOccur metaPat
        ('\n' :: (METADATA_BLOCK_HEADER ++ ('\n' :: joinLines (l2 :: ls2)))) = 0 := by
      apply no_occur_of_no_dnl
      exact no_dnl_nl_joinLines (METADATA_BLOCK_HEADER :: l2 :: ls2) hls1 hls2 (by simp)
    show (if List.isPrefixOf metaPat ('\n' :: (metaPat ++ ('\n' :: joinLines (l2 :: ls2))))
          = true then 1 else 0)
        + ((if List.isPrefixOf metaPat (metaPat ++ ('\n' :: joinLines (l2 :: ls2)))
          = true then 1 else 0)
          + countOccur metaPat
            ('\n' :: (METADATA_BLOCK_HEADER ++ ('\n' :: joinLines (l2 :: ls2))))) = 1
    rw [h1, h2, h3]
    decide

/-! ## Supporting lemmas: the rendered description as a list of lines -/

theorem joinLines_cons_cons_ne_nil (a b : LC) (ls : List LC) :
    joinLines (a :: b :: ls) ≠ [] := by
  show a ++ '\n' :: joinLines (b :: ls) ≠ []
  intro h
  simp at h

theorem map_headers_noNL :
    ∀ vh ∈ AIRTABLE_TO_JIRA_DESC_TABLE_MAP, hasNoNL vh.2 = true := by decide

theorem hasNoNL_descRow (cfg : Config) (fields : List (LC × AValue)) {vh : LC × LC}
    (hh : hasNoNL vh.2 = true) : hasNoNL (descRow cfg fields vh) = true := by
  rw [descRow]
  exact hasNoNL_append (hasNoNL_append (hasNoNL_append (hasNoNL_append (by decide) hh)
    (by decide)) (hasNoNL_sanitizeCell _)) (by decide)

theorem testIdRows_none {cfg : Config} (fields : List (LC × AValue))
    (htid : cfg.testIdField = none) : testIdRows cfg fields = [] := by
  simp [testIdRows, htid, AValue.truthy]

theorem hasNoNL_mkUrl2 {base table recId : LC} (hb : hasNoNL base = true)
    (ht : hasNoNL table = true) (hr : hasNoNL recId = true) :
    hasNoNL (mkAirtableUrl base table recId) = true := by
  rw [mkAirtableUrl]
  exact hasNoNL_append (by decide) (hasNoNL_append hb
    (hasNoNL_cons (by decide) (hasNoNL_append ht (hasNoNL_cons (by decide) hr))))

theorem format_full_meta_shape (cfg : Config) (fields : List (LC × AValue))
    (recId base table ef e : LC)
    (hrne : recId ≠ [])
    (hef : cfg.experimentIdField = some ef)
    (hget : alGet fields ef = some (.str e)) (hene : e ≠ [])
    (hbne : base ≠ []) (htne : table ≠ []) :
    format_full_jira_description cfg recId fields base table
      = mainDescriptionTable cfg fields ++ '\n' :: joinLines
          [('\n' :: '\n' :: METADATA_BLOCK_HEADER),
           METADATA_REC_ID_PREFIX ++ recId,
           METADATA_EXP_ID_PREFIX ++ e,
           METADATA_URL_PREFIX ++ mkAirtableUrl base table recId] := by
  simp [format_full_jira_description, hef, hget, AValue.truthy, AValue.pyFormat,
    hrne, hene, hbne, htne]

theorem format_full_lines (cfg : Config) (fields : List (LC × AValue))
    (recId base table ef e : LC)
    (htid : cfg.testIdField = none) (hrne : recId ≠ [])
    (hef : cfg.experimentIdField = some ef)
    (hget : alGet fields ef = some (.str e)) (hene : e ≠ [])
    (hbne : base ≠ []) (htne : table ≠ []) :
    format_full_jira_description cfg recId fields base table
      = joinLines (([tableHeaderRow, tableSepRow]
          ++ AIRTABLE_TO_JIRA_DESC_TABLE_MAP.map (descRow cfg fields))
          ++ [[], [], METADATA_BLOCK_HEADER, METADATA_REC_ID_PREFIX ++ recId,
              METADATA_EXP_ID_PREFIX ++ e,
              METADATA_URL_PREFIX ++ mkAirtableUrl base table recId]) := by
  rw [format_full_meta_shape cfg fields recId base table ef e hrne hef hget hene hbne htne]
  rw [joinLines_append (by simp) (by simp)]
  rw [mainDescriptionTable, testIdRows_none fields htid, List.append_nil]
  rfl

theorem metaRoundtripA (cfg : Config) (fields : List (LC × AValue))
    (recId base table ef e : LC)
    (hr : checkRecIdGroup recId = true)
    (hef : cfg.experimentIdField = some ef)
    (hget : alGet fields ef = some (.str e))
    (he : matchesWT e = true) (hup : toUpperStr e = e)
    (hb : base.all urlSegP = true) (hbne : base ≠ [])
    (ht : table.all urlSegP = true) (htne : table ≠ [])
    (htid : cfg.testIdField = none) :
    parse_metadata_from_jira_description
        (format_full_jira_description cfg recId fields base table)
      = ⟨some recId, some e, some (mkAirtableUrl base table recId)⟩ := by
  obtain ⟨hrne, hrNL, hrWS⟩ := checkRecIdGroup_facts hr
  obtain ⟨hene, heNL⟩ := matchesWT_facts he
  rw [format_full_lines cfg fields recId base table ef e htid hrne hef hget hene hbne htne]
  have hne0 : joinLines (([tableHeaderRow, tableSepRow]
      ++ AIRTABLE_TO_JIRA_DESC_TABLE_MAP.map (descRow cfg fields))
      ++ [[], [], METADATA_BLOCK_HEADER, METADATA_REC_ID_PREFIX ++ recId,
          METADATA_EXP_ID_PREFIX ++ e,
          METADATA_URL_PREFIX ++ mkAirtableUrl base table recId]) ≠ [] :=
    joinLines_cons_cons_ne_nil _ _ _
  have hrowsNone : ∀ r ∈ [tableHeaderRow, tableSepRow]
      ++ AIRTABLE_TO_JIRA_DESC_TABLE_MAP.map (descRow cfg fields),
      recLineParse r = none ∧ expLineParse r = none ∧ urlLineParse r = none := by
    intro r hr2
    have hx : ∃ x, r = '|' :: x := by
      rcases List.mem_append.mp hr2 with h | h
      · rcases List.mem_cons.mp h with h1 | h1
        · exact ⟨_, h1⟩
        · rcases List.mem_cons.mp h1 with h2 | h2
          · exact ⟨_, h2⟩
          · exact absurd h2 (List.not_mem_nil r)
      · obtain ⟨vh, _, heq⟩ := List.mem_map.mp h
        exact ⟨_, heq.symm⟩
    obtain ⟨x, rfl⟩ := hx
    exact ⟨recLineParse_pipe x, expLineParse_pipe x, urlLineParse_pipe x⟩
  have hALL : ∀ l ∈ ([tableHeaderRow, tableSepRow]
      ++ AIRTABLE_TO_JIRA_DESC_TABLE_MAP.map (descRow cfg fields))
      ++ [[], [], METADATA_BLOCK_HEADER, METADATA_REC_ID_PREFIX ++ recId,
          METADATA_EXP_ID_PREFIX ++ e,
          METADATA_URL_PREFIX ++ mkAirtableUrl base table recId],
      hasNoNL l = true := by
    intro l hl
    rcases List.mem_append.mp hl with h | h
    · rcases List.mem_append.mp h with h1 | h1
      · rcases List.mem_cons.mp h1 with h2 | h2
        · subst h2; decide
        · rcases List.mem_cons.mp h2 with h3 | h3
          · subst h3; decide
          · exact absurd h3 (List.not_mem_nil l)
      · obtain ⟨vh, hvh, heq⟩ := List.mem_map.mp h1
        rw [← heq]
        exact hasNoNL_descRow cfg fields (map_headers_noNL vh hvh)
    · simp only [List.mem_cons, List.not_mem_nil, or_false] at h
      rcases h with h|h|h|h|h|h <;> subst h
      · decide
      · decide
      · decide
      · exact hasNoNL_append (by decide) hrNL
      · exact hasNoNL_append (by decide) heNL
      · exact hasNoNL_append (by decide) (hasNoNL_mkUrl hb ht hrWS)
  rw [parse_metadata_from_jira_description, if_neg hne0,
    splitLines_joinLines hALL (by simp)]
  simp only [List.cons_append, List.nil_append]
  congr 1
  · rw [findSome?_cons_none _ _ _ (by decide), findSome?_cons_none _ _ _ (by decide),
      findSome?_append_of_none _ _
        (fun x hx => (hrowsNone x (List.mem_append.mpr (Or.inr hx))).1),
      findSome?_cons_none _ _ _ (by decide), findSome?_cons_none _ _ _ (by decide),
      findSome?_cons_none _ _ _ (by decide),
      findSome?_cons_some _ _ _ (recLineParse_recLine hr)]
  · rw [findSome?_cons_none _ _ _ (by decide), findSome?_cons_none _ _ _ (by decide),
      findSome?_append_of_none _ _
        (fun x hx => (hrowsNone x (List.mem_append.mpr (Or.inr hx))).2.1),
      findSome?_cons_none _ _ _ (by decide), findSome?_cons_none _ _ _ (by decide),
      findSome?_cons_none _ _ _ (by decide),
      findSome?_cons_none _ _ _ (expLineParse_recLine recId),
      findSome?_cons_some _ _ _ (expLineParse_expLine he hup)]
  · rw [findSome?_cons_none _ _ _ (by decide), findSome?_cons_none _ _ _ (by decide),
      findSome?_append_of_none _ _
        (fun x hx => (hrowsNone x (List.mem_append.mpr (Or.inr hx))).2.2),
      findSome?_cons_none _ _ _ (by decide), findSome?_cons_none _ _ _ (by decide),
      findSome?_cons_none _ _ _ (by decide),
      findSome?_cons_none _ _ _ (urlLineParse_recLine recId),
      findSome?_cons_none _ _ _ (urlLineParse_expLine e),
      findSome?_cons_some _ _ _ (urlLineParse_urlLine hb hbne ht htne hrWS hrne)]

/-! ## Supporting lemmas: phase 1's metadata regeneration -/

theorem updMetadata_shape (d recId base table e : LC) :
    ∃ s0, updateJiraDescriptionMetadata d recId (some e) base table
        = pyStrip s0 ++ '\n' :: joinLines (('\n' :: '\n' :: METADATA_BLOCK_HEADER)
            :: [METADATA_REC_ID_PREFIX ++ recId, METADATA_EXP_ID_PREFIX ++ e,
                METADATA_URL_PREFIX ++ mkAirtableUrl base table recId])
      ∧ ¬ metaPat <:+: pyStrip s0 := by
  rcases hsf : splitFirst metaPat d with _ | ⟨pre, suf⟩
  · refine ⟨d, ?_, not_infix_of_splitFirst_none hsf⟩
    simp only [updateJiraDescriptionMetadata, hsf, List.cons_append, List.nil_append]
  · refine ⟨pre, ?_, not_infix_of_splitFirst_some hsf⟩
    simp only [updateJiraDescriptionMetadata, hsf, List.cons_append, List.nil_append]

theorem updMetadata_facts (d recId base table e : LC)
    (hrNL : hasNoNL recId = true) (heNL : hasNoNL e = true)
    (hbNL : hasNoNL base = true) (htNL : hasNoNL table = true) :
    countOccur metaPat (updateJiraDescriptionMetadata d recId (some e) base table) = 1
    ∧ updateJiraDescriptionMetadata
        (updateJiraDescriptionMetadata d recId (some e) base table)
        recId (some e) base table
      = updateJiraDescriptionMetadata d recId (some e) base table := by
  obtain ⟨s0, hupd, hni⟩ := updMetadata_shape d recId base table e
  have hls1 : ∀ l ∈ METADATA_BLOCK_HEADER :: [METADATA_REC_ID_PREFIX ++ recId,
      METADATA_EXP_ID_PREFIX ++ e, METADATA_URL_PREFIX ++ mkAirtableUrl base table recId],
      hasNoNL l = true := by
    intro l hl
    simp only [List.mem_cons, List.not_mem_nil, or_false] at hl
    rcases hl with h|h|h|h <;> subst h
    · decide
    · exact hasNoNL_append (by decide) hrNL
    · exact hasNoNL_append (by decide) heNL
    · exact hasNoNL_append (by decide) (hasNoNL_mkUrl2 hbNL htNL hrNL)
  have hls2 : ∀ l ∈ METADATA_BLOCK_HEADER :: [METADATA_REC_ID_PREFIX ++ recId,
      METADATA_EXP_ID_PREFIX ++ e, METADATA_URL_PREFIX ++ mkAirtableUrl base table recId],
      l ≠ [] := by
    intro l hl
    simp only [List.mem_cons, List.not_mem_nil, or_false] at hl
    rcases hl with h|h|h|h <;> subst h
    · decide
    · exact append_ne_nil_left _ (by decide)
    · exact append_ne_nil_left _ (by decide)
    · exact append_ne_nil_left _ (by decide)
  have happ2 : (('\n' :: joinLines (('\n' :: '\n' :: METADATA_BLOCK_HEADER)
      :: [METADATA_REC_ID_PREFIX ++ recId, METADATA_EXP_ID_PREFIX ++ e,
          METADATA_URL_PREFIX ++ mkAirtableUrl base table recId])) : LC).take 2
      = ['\n', '\n'] := rfl
  have hfits := no_occur_in_clean hni happ2
  refine ⟨?_, ?_⟩
  · rw [hupd]
    exact countOccur_metaBlock (pyStrip s0) _ hls1 hls2 (by simp) hfits
  · have hassoc : pyStrip s0 ++ '\n' :: joinLines (('\n' :: '\n' :: METADATA_BLOCK_HEADER)
        :: [METADATA_REC_ID_PREFIX ++ recId, METADATA_EXP_ID_PREFIX ++ e,
            METADATA_URL_PREFIX ++ mkAirtableUrl base table recId])
        = (pyStrip s0 ++ ['\n']) ++ joinLines (('\n' :: '\n' :: METADATA_BLOCK_HEADER)
            :: [METADATA_REC_ID_PREFIX ++ recId, METADATA_EXP_ID_PREFIX ++ e,
                METADATA_URL_PREFIX ++ mkAirtableUrl base table recId]) := by
      rw [List.append_assoc]
      rfl
    have hsf2 : splitFirst metaPat (pyStrip s0
        ++ '\n' :: joinLines (('\n' :: '\n' :: METADATA_BLOCK_HEADER)
          :: [METADATA_REC_ID_PREFIX ++ recId, METADATA_EXP_ID_PREFIX ++ e,
              METADATA_URL_PREFIX ++ mkAirtableUrl base table recId]))
        = some (pyStrip s0 ++ ['\n'],
            joinLines (('\n' :: '\n' :: METADATA_BLOCK_HEADER)
              :: [METADATA_REC_ID_PREFIX ++ recId, METADATA_EXP_ID_PREFIX ++ e,
                  METADATA_URL_PREFIX ++ mkAirtableUrl base table recId])) := by
      rw [hassoc]
      apply splitFirst_of_first_occurrence
      · exact isPrefixOf_append_self metaPat
          ('\n' :: joinLines [METADATA_REC_ID_PREFIX ++ recId,
            METADATA_EXP_ID_PREFIX ++ e,
            METADATA_URL_PREFIX ++ mkAirtableUrl base table recId])
      · intro j hj
        rw [← hassoc]
        by_cases hj2 : j < (pyStrip s0).length
        · exact hfits j hj2
        · have hje : j = (pyStrip s0).length := by
            rw [List.length_append, List.length_singleton] at hj
            omega
          subst hje
          rw [List.drop_append_eq_append_drop, List.drop_length, Nat.sub_self,
            List.drop_zero, List.nil_append]
          exact metaPat_not_prefix_nl_self
            ('\n' :: joinLines [METADATA_REC_ID_PREFIX ++ recId,
              METADATA_EXP_ID_PREFIX ++ e,
              METADATA_URL_PREFIX ++ mkAirtableUrl base table recId])
    rw [hupd]
    simp only [updateJiraDescriptionMetadata, hsf2, pyStrip_append_nl,
      List.cons_append, List.nil_append]

/-! ## Supporting lemmas: parsing one description-table row -/

theorem pyStrip_of_ends_not_ws {c d : Char} (x : LC) (hc : isPyWS c = false)
    (hd : isPyWS d = false) : pyStrip ((c :: x) ++ [d]) = (c :: x) ++ [d] := by
  show pyStrip (c :: (x ++ [d])) = _
  rw [pyStrip, trimLeft_cons_not_ws _ hc,
    show (c :: (x ++ [d]) : LC) = (c :: x) ++ [d] from rfl,
    trimRight_append_not_ws _ hd]

theorem removeStars_no_star_append {h : LC} (b : LC) (hs : ∀ c ∈ h, c ≠ '*') :
    removeStars (h ++ b) = h ++ removeStars b := by
  induction h with
  | nil => rfl
  | cons c t ih =>
      have hdc : decide (c = '*') = false := decide_eq_false (hs c (List.mem_cons_self _ _))
      cases t with
      | nil =>
          cases b with
          | nil => rfl
          | cons d r =>
              show removeStars (c :: d :: r) = [c] ++ removeStars (d :: r)
              rw [removeStars, hdc, Bool.false_and]
              simp only [Bool.false_eq_true, if_false]
              rfl
      | cons c2 t2 =>
          show removeStars (c :: c2 :: (t2 ++ b)) = (c :: c2 :: t2) ++ removeStars b
          rw [removeStars, hdc, Bool.false_and]
          simp only [Bool.false_eq_true, if_false]
          rw [show (c2 :: (t2 ++ b) : LC) = (c2 :: t2) ++ b from rfl,
            ih (fun x hx => hs x (List.mem_cons_of_mem _ hx))]
          rfl

theorem parseTableLine_row (cfg : Config) (acc : List (Option LC × LC))
    {h varName fname v : LC}
    (hstar : ∀ c ∈ h, c ≠ '*') (hhp : ∀ c ∈ h, c ≠ '|') (hhtrim : pyStrip h = h)
    (hmap : alGet JIRA_DESC_TABLE_TO_AIRTABLE_MAP h = some varName)
    (hfv : cfg.fieldOfVar varName = some fname)
    (hvp : ∀ c ∈ v, c ≠ '|') (hvtrim : pyStrip v = v)
    (hcountry : alGet COUNTRY_NAME_TO_ISO v = none) :
    parseTableLine cfg acc
      ('|' :: ' ' :: '*' :: '*'
        :: (h ++ ('*' :: '*' :: ' ' :: '|' :: ' ' :: (v ++ [' ', '|']))))
      = alSet acc (some fname) v := by
  have hsnoc : ('|' :: ' ' :: '*' :: '*'
        :: (h ++ ('*' :: '*' :: ' ' :: '|' :: ' ' :: (v ++ [' ', '|']))) : LC)
      = ('|' :: ' ' :: '*' :: '*'
          :: (h ++ ('*' :: '*' :: ' ' :: '|' :: ' ' :: (v ++ [' '])))) ++ ['|'] := by
    simp [List.append_assoc]
  have hstrip : pyStrip ('|' :: ' ' :: '*' :: '*'
        :: (h ++ ('*' :: '*' :: ' ' :: '|' :: ' ' :: (v ++ [' ', '|']))))
      = ('|' :: ' ' :: '*' :: '*'
          :: (h ++ ('*' :: '*' :: ' ' :: '|' :: ' ' :: (v ++ [' ', '|'])))) := by
    rw [pyStrip, trimLeft_cons_not_ws _ (by decide), hsnoc,
      trimRight_append_not_ws _ (by decide), ← hsnoc]
  have hchk : ("| **".data).isPrefixOf (pyStrip ('|' :: ' ' :: '*' :: '*'
      :: (h ++ ('*' :: '*' :: ' ' :: '|' :: ' ' :: (v ++ [' ', '|']))))) = true := by
    rw [hstrip]
    exact isPrefixOf_append_self "| **".data _
  have hseg1 : ∀ c ∈ ((' ' :: '*' :: '*' :: (h ++ ['*', '*', ' '])) : LC), c ≠ '|' := by
    intro c hc
    simp only [List.mem_cons, List.mem_append, List.not_mem_nil, or_false] at hc
    rcases hc with h1|h1|h1|h1|h1|h1|h1
    · subst h1; decide
    · subst h1; decide
    · subst h1; decide
    · exact hhp c h1
    · subst h1; decide
    · subst h1; decide
    · subst h1; decide
  have hseg2 : ∀ c ∈ ((' ' :: (v ++ [' '])) : LC), c ≠ '|' := by
    intro c hc
    simp only [List.mem_cons, List.mem_append, List.not_mem_nil, or_false] at hc
    rcases hc with h1|h1|h1
    · subst h1; decide
    · exact hvp c h1
    · subst h1; decide
  have hr0 : ((' ' :: '*' :: '*'
        :: (h ++ ('*' :: '*' :: ' ' :: '|' :: ' ' :: (v ++ [' ', '|'])))) : LC)
      = (' ' :: '*' :: '*' :: (h ++ ['*', '*', ' ']))
        ++ '|' :: (' ' :: (v ++ [' ', '|'])) := by
    simp [List.append_assoc]
  have hr1 : ((' ' :: (v ++ [' ', '|'])) : LC)
      = (' ' :: (v ++ [' '])) ++ '|' :: [] := by
    simp [List.append_assoc]
  have hsplit : splitOnChar '|' ('|' :: ' ' :: '*' :: '*'
        :: (h ++ ('*' :: '*' :: ' ' :: '|' :: ' ' :: (v ++ [' ', '|']))))
      = [[], ' ' :: '*' :: '*' :: (h ++ ['*', '*', ' ']), ' ' :: (v ++ [' ']), []] := by
    rw [splitOnChar, if_pos rfl, hr0, splitOnChar_append _ hseg1, hr1,
      splitOnChar_append _ hseg2]
    rfl
  have hp0 : pyStrip ([] : LC) = [] := rfl
  have hp1 : pyStrip ((' ' :: '*' :: '*' :: (h ++ ['*', '*', ' '])) : LC)
      = '*' :: '*' :: (h ++ ['*', '*']) := by
    have e1 : ((' ' :: '*' :: '*' :: (h ++ ['*', '*', ' '])) : LC)
        = (' ' :: ('*' :: '*' :: (h ++ ['*', '*']))) ++ [' '] := by
      simp [List.append_assoc]
    have e2 : (('*' :: '*' :: (h ++ ['*', '*'])) : LC)
        = ('*' :: ('*' :: (h ++ ['*']))) ++ ['*'] := by
      simp [List.append_assoc]
    rw [e1, pyStrip_space_wrap, e2, pyStrip_of_ends_not_ws _ (by decide) (by decide), ← e2]
  have hp2 : pyStrip ((' ' :: (v ++ [' '])) : LC) = v := by
    rw [show ((' ' :: (v ++ [' '])) : LC) = (' ' :: v) ++ [' '] from rfl,
      pyStrip_space_wrap, hvtrim]
  have hhdrFull : pyStrip (removeStars ('*' :: '*' :: (h ++ ['*', '*']))) = h := by
    have e3 : removeStars ('*' :: '*' :: (h ++ ['*', '*'])) = h := by
      show removeStars (h ++ ['*', '*']) = h
      rw [removeStars_no_star_append _ hstar,
        show removeStars (['*', '*'] : LC) = [] from rfl, List.append_nil]
    rw [e3, hhtrim]
  rw [parseTableLine, if_neg (not_not_intro hchk), hsplit]
  simp [List.map_cons, List.map_nil, hp0, hp1, hp2, List.get?_cons_zero,
    List.get?_cons_succ, hhdrFull, hvtrim, hmap, hfv, hcountry, ite_self]

/-! ## Supporting lemmas: lines skipped by the table parser -/

theorem parseTableLine_nil_line (cfg : Config) (acc : List (Option LC × LC)) :
    parseTableLine cfg acc [] = acc := by
  rw [parseTableLine, if_pos (by decide)]

theorem parseTableLine_skip {c : Char} (cfg : Config) (acc : List (Option LC × LC))
    (rest : LC) (hws : isPyWS c = false) (hc : c ≠ '|') :
    parseTableLine cfg acc (c :: rest) = acc := by
  have hskip : ¬ (("| **".data.isPrefixOf (pyStrip (c :: rest))) = true) := by
    rw [pipe_check_false rest hws hc]
    exact Bool.false_ne_true
  rw [parseTableLine, if_pos hskip]

theorem parseTableLine_headerRow (cfg : Config) (acc : List (Option LC × LC)) :
    parseTableLine cfg acc tableHeaderRow = acc := by
  rw [parseTableLine, if_pos (by decide)]

theorem parseTableLine_sepRow (cfg : Config) (acc : List (Option LC × LC)) :
    parseTableLine cfg acc tableSepRow = acc := by
  rw [parseTableLine, if_pos (by decide)]

theorem parseTableLine_metaHeader (cfg : Config) (acc : List (Option LC × LC)) :
    parseTableLine cfg acc METADATA_BLOCK_HEADER = acc :=
  parseTableLine_skip cfg acc _ (by decide) (by decide)

theorem parseTableLine_recLine (cfg : Config) (acc : List (Option LC × LC)) (recId : LC) :
    parseTableLine cfg acc (METADATA_REC_ID_PREFIX ++ recId) = acc :=
  parseTableLine_skip cfg acc _ (by decide) (by decide)

theorem parseTableLine_expLine (cfg : Config) (acc : List (Option LC × LC)) (e : LC) :
    parseTableLine cfg acc (METADATA_EXP_ID_PREFIX ++ e) = acc :=
  parseTableLine_skip cfg acc _ (by decide) (by decide)

theorem parseTableLine_urlLine (cfg : Config) (acc : List (Option LC × LC)) (u : LC) :
    parseTableLine cfg acc (METADATA_URL_PREFIX ++ u) = acc :=
  parseTableLine_skip cfg acc _ (by decide) (by decide)

/-! ## Supporting lemmas: the rendered value of a non-reference field -/

theorem getResolvedValueForDesc_plain (cfg : Config) (fields : List (LC × AValue))
    {varName fname v : LC}
    (hfv : cfg.fieldOfVar varName = some fname)
    (hget : alGet fields fname = some (.str v))
    (h1 : cfg.siteIsLinked = false) (h2 : cfg.pageTypeIsLinked = false)
    (h3 : cfg.primaryMetricIsLinked = false) (h4 : cfg.platformIsLinked = false)
    (h5 : cfg.goalIsLinked = false) :
    getResolvedValueForDesc cfg fields varName = v := by
  simp only [getResolvedValueForDesc, hfv, hget]
  by_cases c1 : some fname = cfg.fieldOfVar ("AIRTABLE_COUNTRY_FIELD".data)
  · rw [if_pos c1, h1]
    rfl
  · rw [if_neg c1]
    by_cases c2 : some fname = cfg.fieldOfVar ("AIRTABLE_PAGE_TYPE_FIELD".data)
    · rw [if_pos c2, h2]
      rfl
    · rw [if_neg c2]
      by_cases c3 : some fname = cfg.fieldOfVar ("AIRTABLE_PRIMARY_METRIC_FIELD".data)
      · rw [if_pos c3, h3]
        rfl
      · rw [if_neg c3]
        by_cases c4 : some fname = cfg.fieldOfVar ("AIRTABLE_PLATFORM_FIELD".data)
        · rw [if_pos c4, h4]
          rfl
        · rw [if_neg c4]
          by_cases c5 : some fname = cfg.goalField
          · rw [if_pos c5, h5]
            rfl
          · rw [if_neg c5]
            rfl

theorem descRow_shape (cfg : Config) (fields : List (LC × AValue)) {vh : LC × LC}
    {fname v : LC}
    (hfv : cfg.fieldOfVar vh.1 = some fname)
    (hget : alGet fields fname = some (.str v))
    (h1 : cfg.siteIsLinked = false) (h2 : cfg.pageTypeIsLinked = false)
    (h3 : cfg.primaryMetricIsLinked = false) (h4 : cfg.platformIsLinked = false)
    (h5 : cfg.goalIsLinked = false)
    (hvp : ∀ c ∈ v, c ≠ '|') (hvnl : hasNoNL v = true) :
    descRow cfg fields vh
      = '|' :: ' ' :: '*' :: '*'
        :: (vh.2 ++ ('*' :: '*' :: ' ' :: '|' :: ' ' :: (v ++ [' ', '|']))) := by
  rw [descRow, getResolvedValueForDesc_plain cfg fields hfv hget h1 h2 h3 h4 h5,
    sanitizeCell_id hvp hvnl]
  simp only [List.append_assoc]
  rfl

/-! ## Supporting lemmas: folding the parser over the rendered rows -/

theorem foldl_rows (cfg : Config) (fields : List (LC × AValue)) (f g : LC → LC) :
    ∀ (rows : List (LC × LC)) (acc : List (Option LC × LC)),
    (∀ vh ∈ rows, ∀ acc2, parseTableLine cfg acc2 (descRow cfg fields vh)
        = alSet acc2 (some (f vh.1)) (g vh.1)) →
    (∀ vh ∈ rows, alGet acc (some (f vh.1)) = none) →
    ((rows.map (fun vh => f vh.1)).Nodup) →
    List.foldl (parseTableLine cfg) acc (rows.map (descRow cfg fields))
      = acc ++ rows.map (fun vh => (some (f vh.1), g vh.1))
  | [], acc, _, _, _ => by simp
  | vh :: rest, acc, hrow, hfresh, hnd => by
      rw [List.map_cons, List.foldl_cons, hrow vh (List.mem_cons_self _ _) acc,
        alSet_append_fresh _ (hfresh vh (List.mem_cons_self _ _))]
      rw [List.map_cons] at hnd
      have hnd2 := List.nodup_cons.mp hnd
      have hfresh2 : ∀ x ∈ rest,
          alGet (acc ++ [(some (f vh.1), g vh.1)]) (some (f x.1)) = none := by
        intro x hx
        rw [alGet_append, hfresh x (List.mem_cons_of_mem _ hx), Option.none_or]
        have hne2 : some (f vh.1) ≠ some (f x.1) := by
          intro hcon
          injection hcon with hcon2
          have hmem : f x.1 ∈ rest.map (fun vh => f vh.1) := List.mem_map_of_mem _ hx
          rw [← hcon2] at hmem
          exact hnd2.1 hmem
        rw [alGet, if_neg hne2]
        rfl
      rw [foldl_rows cfg fields f g rest (acc ++ [(some (f vh.1), g vh.1)])
        (fun x hx acc2 => hrow x (List.mem_cons_of_mem _ hx) acc2) hfresh2 hnd2.2]
      simp [List.append_assoc]

/-! ## Claim C9 -/

/-- Claim C9 (confirmed): on a description consisting of two complete stacked
metadata blocks, `parse_metadata_from_jira_description` returns the first
block's record id, experiment id and URL; the second block's values are
ignored (each of the three anchored searches returns its first matching
line). -/
theorem c9_stacked_blocks_first_wins (r1 e1 b1 t1 r2 e2 u2 : LC)
    (hr1 : checkRecIdGroup r1 = true)
    (he1 : matchesWT e1 = true) (hup1 : toUpperStr e1 = e1)
    (hb1 : b1.all urlSegP = true) (hb1ne : b1 ≠ [])
    (ht1 : t1.all urlSegP = true) (ht1ne : t1 ≠ [])
    (hr2 : hasNoNL r2 = true) (he2 : hasNoNL e2 = true) (hu2 : hasNoNL u2 = true) :
    parse_metadata_from_jira_description
        (metadataBlockText r1 e1 (mkAirtableUrl b1 t1 r1)
          ++ '\n' :: metadataBlockText r2 e2 u2)
      = ⟨some r1, some e1, some (mkAirtableUrl b1 t1 r1)⟩ := by
  obtain ⟨hr1ne, hr1nl, hr1ws⟩ := checkRecIdGroup_facts hr1
  obtain ⟨he1ne, he1nl⟩ := matchesWT_facts he1
  have hlines : ∀ l ∈ ([METADATA_BLOCK_HEADER, METADATA_REC_ID_PREFIX ++ r1,
      METADATA_EXP_ID_PREFIX ++ e1, METADATA_URL_PREFIX ++ mkAirtableUrl b1 t1 r1]
      ++ [METADATA_BLOCK_HEADER, METADATA_REC_ID_PREFIX ++ r2,
      METADATA_EXP_ID_PREFIX ++ e2, METADATA_URL_PREFIX ++ u2]), hasNoNL l = true := by
    intro l hl
    simp only [List.mem_append, List.mem_cons, List.not_mem_nil, or_false] at hl
    rcases hl with ((h | h | h | h) | (h | h | h | h)) <;> subst h
    · decide
    · exact hasNoNL_append (by decide) hr1nl
    · exact hasNoNL_append (by decide) he1nl
    · exact hasNoNL_append (by decide) (hasNoNL_mkUrl hb1 ht1 hr1ws)
    · decide
    · exact hasNoNL_append (by decide) hr2
    · exact hasNoNL_append (by decide) he2
    · exact hasNoNL_append (by decide) hu2
  have hjoin : metadataBlockText r1 e1 (mkAirtableUrl b1 t1 r1)
      ++ '\n' :: metadataBlockText r2 e2 u2
      = joinLines ([METADATA_BLOCK_HEADER, METADATA_REC_ID_PREFIX ++ r1,
          METADATA_EXP_ID_PREFIX ++ e1, METADATA_URL_PREFIX ++ mkAirtableUrl b1 t1 r1]
          ++ [METADATA_BLOCK_HEADER, METADATA_REC_ID_PREFIX ++ r2,
          METADATA_EXP_ID_PREFIX ++ e2, METADATA_URL_PREFIX ++ u2]) := by
    rw [joinLines_append (by simp) (by simp)]
    rfl
  rw [hjoin, parse_metadata_from_jira_description]
  rw [if_neg (by simp [joinLines])]
  rw [splitLines_joinLines hlines (by simp)]
  simp only [List.cons_append, List.nil_append]
  congr 1
  · rw [findSome?_cons_none _ _ _ (by decide),
      findSome?_cons_some _ _ _ (recLineParse_recLine hr1)]
  · rw [findSome?_cons_none _ _ _ (by decide),
      findSome?_cons_none _ _ _ (expLineParse_recLine r1),
      findSome?_cons_some _ _ _ (expLineParse_expLine he1 hup1)]
  · rw [findSome?_cons_none _ _ _ (by decide),
      findSome?_cons_none _ _ _ (urlLineParse_recLine r1),
      findSome?_cons_none _ _ _ (urlLineParse_expLine e1),
      findSome?_cons_some _ _ _ (urlLineParse_urlLine hb1 hb1ne ht1 ht1ne hr1ws hr1ne)]

theorem c9_stacked_blocks_first_wins_witness :
    parse_metadata_from_jira_description
        (metadataBlockText c9Rec1 "W1T1".data (mkAirtableUrl "appA".data "tblB".data c9Rec1)
          ++ '\n' :: metadataBlockText c9Rec2 "W2T2".data
            "https://airtable.com/appA/tblB/rec22222222222222".data)
      = ⟨some c9Rec1, some "W1T1".data,
         some (mkAirtableUrl "appA".data "tblB".data c9Rec1)⟩ :=
  c9_stacked_blocks_first_wins c9Rec1 "W1T1".data "appA".data "tblB".data c9Rec2
    "W2T2".data "https://airtable.com/appA/tblB/rec22222222222222".data
    (by decide) (by decide) (by decide) (by decide) (by decide) (by decide) (by decide)
    (by decide) (by decide) (by decide)

/-! ## Claim C7, amended -/

/-- Claim C7 (corrected, amended): for record ids of the shape the parser's
pattern accepts (`rec` + 14 alphanumerics), experiment ids matching the
uppercase `W\d+T\d+` shape, and non-empty slash- and whitespace-free base and
table ids, parsing the description produced by `format_full_jira_description`
recovers the record id, experiment id and URL exactly; and phase 1's
regeneration step (strip the prior block, then append a fresh one) yields a
description containing exactly one metadata block and is idempotent. -/
theorem c7_metadata_roundtrip_amended (cfg : Config) (fields : List (LC × AValue))
    (d recId base table ef e : LC)
    (hr : checkRecIdGroup recId = true)
    (hef : cfg.experimentIdField = some ef)
    (hget : alGet fields ef = some (.str e))
    (he : matchesWT e = true) (hup : toUpperStr e = e)
    (hb : base.all urlSegP = true) (hbne : base ≠ [])
    (ht : table.all urlSegP = true) (htne : table ≠ [])
    (htid : cfg.testIdField = none) :
    parse_metadata_from_jira_description
        (format_full_jira_description cfg recId fields base table)
      = ⟨some recId, some e, some (mkAirtableUrl base table recId)⟩
    ∧ countOccur metaPat (updateJiraDescriptionMetadata d recId (some e) base table) = 1
    ∧ updateJiraDescriptionMetadata
        (updateJiraDescriptionMetadata d recId (some e) base table)
        recId (some e) base table
      = updateJiraDescriptionMetadata d recId (some e) base table := by
  obtain ⟨hrne, hrNL, hrWS⟩ := checkRecIdGroup_facts hr
  obtain ⟨hene, heNL⟩ := matchesWT_facts he
  have hbNL : hasNoNL base = true := hasNoNL_of_all_nonWS
    (List.all_eq_true.mpr fun c hc => urlSegP_nonWS ((List.all_eq_true.mp hb) c hc))
  have htNL : hasNoNL table = true := hasNoNL_of_all_nonWS
    (List.all_eq_true.mpr fun c hc => urlSegP_nonWS ((List.all_eq_true.mp ht) c hc))
  obtain ⟨hcount, hidem⟩ := updMetadata_facts d recId base table e hrNL heNL hbNL htNL
  exact ⟨metaRoundtripA cfg fields recId base table ef e hr hef hget he hup hb hbne
    ht htne htid, hcount, hidem⟩

theorem c7_metadata_roundtrip_amended_witness :
    parse_metadata_from_jira_description
        (format_full_jira_description c7WCfg "rec11111111111111".data c7WFields
          "appA".data "tblB".data)
      = ⟨some "rec11111111111111".data, some "W1T1".data,
         some (mkAirtableUrl "appA".data "tblB".data "rec11111111111111".data)⟩
    ∧ countOccur metaPat (updateJiraDescriptionMetadata "old text".data
        "rec11111111111111".data (some "W1T1".data) "appA".data "tblB".data) = 1
    ∧ updateJiraDescriptionMetadata
        (updateJiraDescriptionMetadata "old text".data "rec11111111111111".data
          (some "W1T1".data) "appA".data "tblB".data)
        "rec11111111111111".data (some "W1T1".data) "appA".data "tblB".data
      = updateJiraDescriptionMetadata "old text".data "rec11111111111111".data
        (some "W1T1".data) "appA".data "tblB".data :=
  c7_metadata_roundtrip_amended c7WCfg c7WFields "old text".data
    "rec11111111111111".data "appA".data "tblB".data "EXPF".data "W1T1".data
    (by decide) rfl (by decide) (by decide) (by decide) (by decide) (by decide)
    (by decide) (by decide) rfl

/-! ## Claim C8, amended -/

/-- Claim C8 (corrected, amended): for a configuration in which every
description-table variable is set to a distinct field name, none of the
resolvable fields is a linked-record reference, and every field value is a
stripped string free of pipes and newlines whose text is not a country
display name, parsing the rendered description recovers exactly the original
value at each configured field name (the test-id row is absent and the
metadata block is ignored by the table parser). -/
theorem c8_table_roundtrip_amended (cfg : Config) (fields : List (LC × AValue))
    (recId base table ef e : LC) (f g : LC → LC)
    (h1 : cfg.siteIsLinked = false) (h2 : cfg.pageTypeIsLinked = false)
    (h3 : cfg.primaryMetricIsLinked = false) (h4 : cfg.platformIsLinked = false)
    (h5 : cfg.goalIsLinked = false)
    (htid : cfg.testIdField = none)
    (hrne : recId ≠ []) (hrNL : hasNoNL recId = true)
    (hef : cfg.experimentIdField = some ef)
    (hgete : alGet fields ef = some (.str e)) (hene : e ≠ []) (heNL : hasNoNL e = true)
    (hbne : base ≠ []) (hbNL : hasNoNL base = true)
    (htne : table ≠ []) (htNL : hasNoNL table = true)
    (hcfg : ∀ vh ∈ AIRTABLE_TO_JIRA_DESC_TABLE_MAP, cfg.fieldOfVar vh.1 = some (f vh.1))
    (hvals : ∀ vh ∈ AIRTABLE_TO_JIRA_DESC_TABLE_MAP,
      alGet fields (f vh.1) = some (.str (g vh.1)))
    (hwf : ∀ vh ∈ AIRTABLE_TO_JIRA_DESC_TABLE_MAP,
      (∀ c ∈ g vh.1, c ≠ '|') ∧ hasNoNL (g vh.1) = true ∧ pyStrip (g vh.1) = g vh.1
        ∧ alGet COUNTRY_NAME_TO_ISO (g vh.1) = none)
    (hinj : (AIRTABLE_TO_JIRA_DESC_TABLE_MAP.map (fun vh => f vh.1)).Nodup) :
    parse_jira_description_table_to_airtable_fields cfg
        (format_full_jira_description cfg recId fields base table)
      = AIRTABLE_TO_JIRA_DESC_TABLE_MAP.map (fun vh => (some (f vh.1), g vh.1)) := by
  rw [format_full_lines cfg fields recId base table ef e htid hrne hef hgete hene hbne htne]
  have hne0 : joinLines (([tableHeaderRow, tableSepRow]
      ++ AIRTABLE_TO_JIRA_DESC_TABLE_MAP.map (descRow cfg fields))
      ++ [[], [], METADATA_BLOCK_HEADER, METADATA_REC_ID_PREFIX ++ recId,
          METADATA_EXP_ID_PREFIX ++ e,
          METADATA_URL_PREFIX ++ mkAirtableUrl base table recId]) ≠ [] :=
    joinLines_cons_cons_ne_nil _ _ _
  have hALL : ∀ l ∈ ([tableHeaderRow, tableSepRow]
      ++ AIRTABLE_TO_JIRA_DESC_TABLE_MAP.map (descRow cfg fields))
      ++ [[], [], METADATA_BLOCK_HEADER, METADATA_REC_ID_PREFIX ++ recId,
          METADATA_EXP_ID_PREFIX ++ e,
          METADATA_URL_PREFIX ++ mkAirtableUrl base table recId],
      hasNoNL l = true := by
    intro l hl
    rcases List.mem_append.mp hl with h | h
    · rcases List.mem_append.mp h with ha | ha
      · rcases List.mem_cons.mp ha with hb | hb
        · subst hb; decide
        · rcases List.mem_cons.mp hb with hc | hc
          · subst hc; decide
          · exact absurd hc (List.not_mem_nil l)
      · obtain ⟨vh, hvh, heq⟩ := List.mem_map.mp ha
        rw [← heq]
        exact hasNoNL_descRow cfg fields (map_headers_noNL vh hvh)
    · simp only [List.mem_cons, List.not_mem_nil, or_false] at h
      rcases h with h|h|h|h|h|h <;> subst h
      · decide
      · decide
      · decide
      · exact hasNoNL_append (by decide) hrNL
      · exact hasNoNL_append (by decide) heNL
      · exact hasNoNL_append (by decide) (hasNoNL_mkUrl2 hbNL htNL hrNL)
  rw [parse_jira_description_table_to_airtable_fields, if_neg hne0,
    splitLines_joinLines hALL (by simp)]
  simp only [List.cons_append, List.nil_append]
  have hhdrfacts : ∀ vh ∈ AIRTABLE_TO_JIRA_DESC_TABLE_MAP,
      (∀ c ∈ vh.2, c ≠ '*') ∧ (∀ c ∈ vh.2, c ≠ '|') ∧ pyStrip vh.2 = vh.2
        ∧ alGet JIRA_DESC_TABLE_TO_AIRTABLE_MAP vh.2 = some vh.1 := by decide
  have hrow : ∀ vh ∈ AIRTABLE_TO_JIRA_DESC_TABLE_MAP, ∀ acc2,
      parseTableLine cfg acc2 (descRow cfg fields vh)
        = alSet acc2 (some (f vh.1)) (g vh.1) := by
    intro vh hvh acc2
    obtain ⟨hgp, hgnl, hgtrim, hgcountry⟩ := hwf vh hvh
    obtain ⟨hhstar, hhpipe, hhtrim, hhmap⟩ := hhdrfacts vh hvh
    rw [descRow_shape cfg fields (hcfg vh hvh) (hvals vh hvh) h1 h2 h3 h4 h5 hgp hgnl]
    exact parseTableLine_row cfg acc2 hhstar hhpipe hhtrim hhmap (hcfg vh hvh)
      hgp hgtrim hgcountry
  rw [List.foldl_cons, parseTableLine_headerRow, List.foldl_cons, parseTableLine_sepRow,
    List.foldl_append,
    foldl_rows cfg fields f g AIRTABLE_TO_JIRA_DESC_TABLE_MAP [] hrow
      (fun x hx => rfl) hinj]
  simp only [List.nil_append]
  rw [List.foldl_cons, parseTableLine_nil_line, List.foldl_cons, parseTableLine_nil_line,
    List.foldl_cons, parseTableLine_metaHeader, List.foldl_cons, parseTableLine_recLine,
    List.foldl_cons, parseTableLine_expLine, List.foldl_cons, parseTableLine_urlLine,
    List.foldl_nil]

theorem c8_table_roundtrip_amended_witness :
    parse_jira_description_table_to_airtable_fields c8WCfg
        (format_full_jira_description c8WCfg "rec11111111111111".data c8WFields
          "appA".data "tblB".data)
      = AIRTABLE_TO_JIRA_DESC_TABLE_MAP.map (fun vh => (some vh.1, "x".data)) :=
  c8_table_roundtrip_amended c8WCfg c8WFields "rec11111111111111".data "appA".data
    "tblB".data "EXPF".data "W1T1".data (fun v => v) (fun _ => "x".data)
    rfl rfl rfl rfl rfl rfl (by decide) (by decide) rfl (by decide) (by decide)
    (by decide) (by decide) (by decide) (by decide) (by decide) (by decide)
    (by decide) (by decide) (by decide)

end AJSync

